import Mathlib

/-!
Verification of the feng-shui chi-flow simulation core.

The development shallowly embeds the simulation sources:
* `Grid` (grid.js, in `src/unnamed/part_000`): per-cell parallel arrays and accessors;
* `Simulation.rasterize` / `Simulation.solve` (the SOR-based `Simulation` class in
  `src/js/bagua.js`, lines 333-612, which shadows the earlier Jacobi version);
* `ParticleSystem` (`src/js/particles.js`).

Modelling conventions:
* JS numbers written by the rasterizer and read as guards (`cells`, `sources`) are
  embedded as `ℚ`; the fields produced by irrational arithmetic (`potential`,
  `vx`, `vy`, `speed`, and `flowModifier`, which receives `-0.6*(1 - sqrt(d)/4)`
  halo values) are embedded as `ℝ`.
* `Float32Array` out-of-range reads never happen on in-range indices; lists model
  the arrays, `List.getD i 0` models a read and `List.set` a write (out-of-range
  writes are discarded, exactly as on a typed array).
* `Math.round` is round-half-up toward positive infinity, which is Mathlib's
  `round` on `ℚ`.
* `Math.random()` is modelled by an explicit stream of real numbers (`Rng`).
-/

namespace FengShui

/-! ### List toolkit -/

theorem getD_set_eq {l : List ℚ} {i : ℕ} {a : ℚ} (h : i < l.length) :
    (l.set i a).getD i 0 = a := by
  simp [List.getD, List.getElem?_set_self h]

theorem getD_set_ne {l : List ℚ} {i j : ℕ} {a : ℚ} (h : i ≠ j) :
    (l.set i a).getD j 0 = l.getD j 0 := by
  simp [List.getD, List.getElem?_set_ne h]

theorem getD_set_eqR {l : List ℝ} {i : ℕ} {a : ℝ} (h : i < l.length) :
    (l.set i a).getD i 0 = a := by
  simp [List.getD, List.getElem?_set_self h]

theorem getD_set_neR {l : List ℝ} {i j : ℕ} {a : ℝ} (h : i ≠ j) :
    (l.set i a).getD j 0 = l.getD j 0 := by
  simp [List.getD, List.getElem?_set_ne h]

theorem foldl_preserves {α β : Type _} (P : β → Prop) (f : β → α → β) (l : List α) (b : β)
    (hb : P b) (hf : ∀ x ∈ l, ∀ acc, P acc → P (f acc x)) : P (l.foldl f b) := by
  induction l generalizing b with
  | nil => exact hb
  | cons a t ih =>
      exact ih (f b a) (hf a (List.mem_cons_self a t) b hb)
        (fun x hx acc hacc => hf x (List.mem_cons_of_mem a hx) acc hacc)

theorem foldl_establishes {α β : Type _} (P : β → Prop) (f : β → α → β) :
    ∀ (l : List α) (b : β) (a0 : α), a0 ∈ l → (∀ acc, P (f acc a0)) →
      (∀ x ∈ l, ∀ acc, P acc → P (f acc x)) → P (l.foldl f b)
  | [], _, _, ha, _, _ => absurd ha (List.not_mem_nil _)
  | hd :: t, b, a0, ha, hest, hf => by
      rcases List.mem_cons.mp ha with h | h
      · subst h
        exact foldl_preserves P f t (f b a0) (hest b)
          (fun x hx acc hacc => hf x (List.mem_cons_of_mem _ hx) acc hacc)
      · exact foldl_establishes P f t (f b hd) a0 h hest
          (fun x hx acc hacc => hf x (List.mem_cons_of_mem _ hx) acc hacc)

theorem getD_zero_of_all_zero {l : List ℝ} (h : ∀ x ∈ l, x = 0) (j : ℕ) :
    l.getD j 0 = 0 := by
  rcases lt_or_le j l.length with hj | hj
  · have := List.getD_eq_getElem l 0 hj
    rw [this]
    exact h _ (l.getElem_mem hj)
  · simp [List.getD, List.getElem?_eq_none hj]

theorem all_zero_set_zero {l : List ℝ} (h : ∀ x ∈ l, x = 0) (i : ℕ) :
    ∀ x ∈ l.set i 0, x = 0 := by
  intro x hx
  rcases List.mem_or_eq_of_mem_set hx with h1 | h1
  · exact h x h1
  · exact h1

/-! ### Grid (grid.js) -/

/-- The simulation grid: width, height and the per-cell parallel arrays of
`grid.js`.  `cells` is the `material` array (0 open, 1 wall, in between a
partial obstacle), `sources` the signed source strengths. -/
structure Grid where
  width : ℕ
  height : ℕ
  cells : List ℚ
  sources : List ℚ
  potential : List ℝ
  vx : List ℝ
  vy : List ℝ
  speed : List ℝ
  flowModifier : List ℝ

/-- Construct a grid of the given dimensions with every array zero-filled,
as the `Grid` constructor does. -/
def Grid.make (width height : ℕ) : Grid :=
  ⟨width, height,
    List.replicate (width * height) 0, List.replicate (width * height) 0,
    List.replicate (width * height) 0, List.replicate (width * height) 0,
    List.replicate (width * height) 0, List.replicate (width * height) 0,
    List.replicate (width * height) 0⟩

/-- Row-major index `y * width + x` (`Grid.idx`).  It is only ever used on
in-bounds coordinates, where the `Int.toNat` conversion is exact. -/
def Grid.idx (g : Grid) (x y : ℤ) : ℕ :=
  (y * g.width + x).toNat

/-- Bounds test (`Grid.inBounds`). -/
def Grid.inBounds (g : Grid) (x y : ℤ) : Prop :=
  0 ≤ x ∧ x < g.width ∧ 0 ≤ y ∧ y < g.height

instance (g : Grid) (x y : ℤ) : Decidable (g.inBounds x y) := by
  unfold Grid.inBounds
  infer_instance

/-- Zero out every array, keeping the dimensions (`Grid.clear`). -/
def Grid.clear (g : Grid) : Grid :=
  Grid.make g.width g.height

/-- Write wall material (`Grid.setWall`): guarded by the bounds check. -/
def Grid.setWall (g : Grid) (x y : ℤ) : Grid :=
  if g.inBounds x y then { g with cells := g.cells.set (g.idx x y) 1 } else g

/-- Write obstacle material (`Grid.setObstacle`). -/
def Grid.setObstacle (g : Grid) (x y : ℤ) (resistance : ℚ) : Grid :=
  if g.inBounds x y then { g with cells := g.cells.set (g.idx x y) resistance } else g

/-- Write a source strength (`Grid.setSource`). -/
def Grid.setSource (g : Grid) (x y : ℤ) (strength : ℚ) : Grid :=
  if g.inBounds x y then { g with sources := g.sources.set (g.idx x y) strength } else g

/-- Write a flow modifier (`Grid.setFlowModifier`). -/
def Grid.setFlowModifier (g : Grid) (x y : ℤ) (mod : ℝ) : Grid :=
  if g.inBounds x y then { g with flowModifier := g.flowModifier.set (g.idx x y) mod } else g

/-- Wall test (`Grid.isWall`): out-of-bounds cells count as walls. -/
def Grid.isWall (g : Grid) (x y : ℤ) : Prop :=
  ¬ g.inBounds x y ∨ 1 ≤ g.cells.getD (g.idx x y) 0

instance (g : Grid) (x y : ℤ) : Decidable (g.isWall x y) := by
  unfold Grid.isWall
  infer_instance

/-- Speed accessor (`Grid.getSpeed`): 0 out of bounds. -/
noncomputable def Grid.getSpeed (g : Grid) (x y : ℤ) : ℝ :=
  if g.inBounds x y then g.speed.getD (g.idx x y) 0 else 0

/-- Velocity accessor (`Grid.getVelocity`): the zero vector out of bounds. -/
def Grid.getVelocity (g : Grid) (x y : ℤ) : ℝ × ℝ :=
  if g.inBounds x y then (g.vx.getD (g.idx x y) 0, g.vy.getD (g.idx x y) 0) else (0, 0)

/-- Bilinear interpolation of the velocity field at fractional coordinates
(`Grid.getVelocityAt`). -/
noncomputable def Grid.getVelocityAt (g : Grid) (fx fy : ℝ) : ℝ × ℝ :=
  let x0 := ⌊fx⌋
  let y0 := ⌊fy⌋
  let x1 := x0 + 1
  let y1 := y0 + 1
  let sx := fx - (x0 : ℝ)
  let sy := fy - (y0 : ℝ)
  let v00 := g.getVelocity x0 y0
  let v10 := g.getVelocity x1 y0
  let v01 := g.getVelocity x0 y1
  let v11 := g.getVelocity x1 y1
  ((1 - sx) * (1 - sy) * v00.1 + sx * (1 - sy) * v10.1 +
      (1 - sx) * sy * v01.1 + sx * sy * v11.1,
    (1 - sx) * (1 - sy) * v00.2 + sx * (1 - sy) * v10.2 +
      (1 - sx) * sy * v01.2 + sx * sy * v11.2)

/-- Maximum entry of the speed array (`Grid.getMaxSpeed`): a linear scan
starting from 0. -/
noncomputable def Grid.getMaxSpeed (g : Grid) : ℝ :=
  g.speed.foldl (fun m s => if s > m then s else m) 0

/-! ### Geometry inputs (the editor snapshot consumed by `rasterize`) -/

/-- A line segment with continuous-coordinate endpoints (wall / door / window). -/
structure Seg where
  x1 : ℚ
  y1 : ℚ
  x2 : ℚ
  y2 : ℚ
deriving DecidableEq

/-- Furniture element tags distinguished by `rasterize` (`item.type`). -/
inductive FurnKind where
  | mirror
  | plant
  | rug
  | other
deriving DecidableEq

/-- A furniture rectangle.  `flowResistance` is `none` when the JS field is
absent; `item.flowResistance || 0.8` also maps an explicit 0 to the 0.8
default, see `resistOrDefault`. -/
structure FurnitureItem where
  x : ℚ
  y : ℚ
  width : ℚ
  height : ℚ
  ftype : FurnKind
  flowResistance : Option ℚ
  poisonArrow : Bool
deriving DecidableEq

/-- The room-bounds rectangle. -/
structure Rect where
  x : ℚ
  y : ℚ
  width : ℚ
  height : ℚ
deriving DecidableEq

/-- The geometry snapshot passed to `rasterize` (an absent furniture list in JS
behaves like an empty one, since the code runs `if (furniture)`). -/
structure EditorState where
  walls : List Seg
  doors : List Seg
  windows : List Seg
  furniture : List FurnitureItem
  roomBounds : Rect
deriving DecidableEq

/-- JS `item.flowResistance || 0.8`: both an absent field and an explicit 0
fall back to 0.8 (0 is falsy). -/
def resistOrDefault (o : Option ℚ) : ℚ :=
  match o with
  | some r => if r = 0 then 4/5 else r
  | none => 4/5

/-- The continuous-to-grid coordinate map `toGrid`:
`Math.round((w - bounds) * scale)` on each axis. -/
def toGrid (rb : Rect) (sX sY : ℚ) (wx wy : ℚ) : ℤ × ℤ :=
  (round ((wx - rb.x) * sX), round ((wy - rb.y) * sY))

/-! ### Bresenham line walk (`Simulation.rasterizeLine`)

The JS loop is `while (true)`; a standard Bresenham walk from `(x0,y0)` to
`(x1,y1)` visits exactly `max dx dy + 1` cells, so running the loop body on a
fuel of `dx + dy + 1` steps reproduces it on every input; the fuel exists only
to exhibit termination. -/

def bresLoop : ℕ → ℤ → ℤ → ℤ → ℤ → ℤ → ℤ → ℤ → ℤ → ℤ → List (ℤ × ℤ)
  | 0, _, _, _, _, _, _, _, _, _ => []
  | fuel+1, x0, y0, x1, y1, dx, dy, sx, sy, err =>
      (x0, y0) ::
        (if x0 = x1 ∧ y0 = y1 then []
         else
           let e2 := 2 * err
           let err1 := if e2 > -dy then err - dy else err
           let x0' := if e2 > -dy then x0 + sx else x0
           let err2 := if e2 < dx then err1 + dx else err1
           let y0' := if e2 < dx then y0 + sy else y0
           bresLoop fuel x0' y0' x1 y1 dx dy sx sy err2)

/-- The list of grid cells visited by `rasterizeLine(x0, y0, x1, y1, cb)`, in
callback order. -/
def rasterizeLine (x0 y0 x1 y1 : ℤ) : List (ℤ × ℤ) :=
  let dx := |x1 - x0|
  let dy := |y1 - y0|
  let sx : ℤ := if x0 < x1 then 1 else -1
  let sy : ℤ := if y0 < y1 then 1 else -1
  bresLoop (dx + dy + 1).toNat x0 y0 x1 y1 dx dy sx sy (dx - dy)

/-! ### Rasterizer (`Simulation.rasterize`, bagua.js lines 342-462) -/

/-- The four orthogonal-neighbor offsets, in source order. -/
def orthOffsets : List (ℤ × ℤ) := [(1, 0), (-1, 0), (0, 1), (0, -1)]

/-- Per-visited-cell action of the wall pass: mark the cell and its four
orthogonal neighbors as wall (thickening). -/
def wallVisit (g : Grid) (p : ℤ × ℤ) : Grid :=
  ((((g.setWall p.1 p.2).setWall (p.1 + 1) p.2).setWall (p.1 - 1) p.2).setWall
      p.1 (p.2 + 1)).setWall p.1 (p.2 - 1)

/-- Per-visited-cell action of the door and window passes: clear wall material
and write a source of strength `s` at the cell, then strength `ns` at each
in-bounds orthogonal neighbor (doors: 1 and 0.8; windows: 0.4 and 0.2). -/
def carveVisit (s ns : ℚ) (g : Grid) (p : ℤ × ℤ) : Grid :=
  let g1 :=
    if g.inBounds p.1 p.2 then
      ({ g with cells := g.cells.set (g.idx p.1 p.2) 0 }).setSource p.1 p.2 s
    else g
  orthOffsets.foldl
    (fun gg d =>
      let nx := p.1 + d.1
      let ny := p.2 + d.2
      if gg.inBounds nx ny then
        ({ gg with cells := gg.cells.set (gg.idx nx ny) 0 }).setSource nx ny ns
      else gg)
    g1

/-- Inclusive integer range `a..b` (empty when `b < a`), modelling the JS
`for (v = a; v <= b; v++)` loops. -/
def intRange (a b : ℤ) : List ℤ :=
  (List.range (b + 1 - a).toNat).map (fun (k : ℕ) => a + (k : ℤ))

/-- Rasterize one furniture item: obstacle/source/modifier writes over its
clamped grid bounding box, then the poison-arrow halo at its corners.  The JS
guard `dist <= 3` with `dist = Math.sqrt(dx*dx + dy*dy)` is written as the
equivalent integer test `dx*dx + dy*dy ≤ 9`. -/
noncomputable def rasterizeFurniture (rb : Rect) (sX sY : ℚ) (w h : ℕ) (g : Grid)
    (item : FurnitureItem) : Grid :=
  let tl := toGrid rb sX sY item.x item.y
  let br := toGrid rb sX sY (item.x + item.width) (item.y + item.height)
  let g1 :=
    (intRange (max 1 tl.2) (min ((h : ℤ) - 2) br.2)).foldl
      (fun gy_acc gy =>
        (intRange (max 1 tl.1) (min ((w : ℤ) - 2) br.1)).foldl
          (fun gx_acc gx =>
            match item.ftype with
            | FurnKind.mirror => gx_acc.setSource gx gy (3/10)
            | FurnKind.plant => gx_acc.setFlowModifier gx gy (1/2)
            | FurnKind.rug =>
                (gx_acc.setObstacle gx gy (3/20)).setFlowModifier gx gy (1/5)
            | FurnKind.other =>
                gx_acc.setObstacle gx gy (resistOrDefault item.flowResistance))
          gy_acc)
      g
  if item.poisonArrow then
    let corners :=
      [toGrid rb sX sY item.x item.y,
       toGrid rb sX sY (item.x + item.width) item.y,
       toGrid rb sX sY item.x (item.y + item.height),
       toGrid rb sX sY (item.x + item.width) (item.y + item.height)]
    corners.foldl
      (fun cg c =>
        (intRange (-3) 3).foldl
          (fun cg1 dy =>
            (intRange (-3) 3).foldl
              (fun cg2 dx =>
                if dx * dx + dy * dy ≤ 9 then
                  cg2.setFlowModifier (c.1 + dx) (c.2 + dy)
                    (-(3/5) * (1 - Real.sqrt (((dx : ℝ))^2 + ((dy : ℝ))^2) / 4))
                else cg2)
              cg1)
          cg)
      g1
  else g1

/-- The body of `rasterize` on a grid of known dimensions (the first action of
`rasterize` is `g.clear()`, which depends on `g` only through `width` and
`height`; the dimensions never change afterwards). -/
noncomputable def rasterizeSized (state : EditorState) (w h : ℕ) : Grid :=
  let g0 := Grid.make w h
  let sX := (w : ℚ) / state.roomBounds.width
  let sY := (h : ℚ) / state.roomBounds.height
  let g1 := (List.range w).foldl
    (fun gg x => ((gg.setWall (x : ℤ) 0).setWall (x : ℤ) ((h : ℤ) - 1))) g0
  let g2 := (List.range h).foldl
    (fun gg y => ((gg.setWall 0 (y : ℤ)).setWall ((w : ℤ) - 1) (y : ℤ))) g1
  let g3 := state.walls.foldl
    (fun gg s =>
      let a := toGrid state.roomBounds sX sY s.x1 s.y1
      let b := toGrid state.roomBounds sX sY s.x2 s.y2
      (rasterizeLine a.1 a.2 b.1 b.2).foldl wallVisit gg)
    g2
  let g4 := state.doors.foldl
    (fun gg s =>
      let a := toGrid state.roomBounds sX sY s.x1 s.y1
      let b := toGrid state.roomBounds sX sY s.x2 s.y2
      (rasterizeLine a.1 a.2 b.1 b.2).foldl (carveVisit 1 (4/5)) gg)
    g3
  let g5 := state.windows.foldl
    (fun gg s =>
      let a := toGrid state.roomBounds sX sY s.x1 s.y1
      let b := toGrid state.roomBounds sX sY s.x2 s.y2
      (rasterizeLine a.1 a.2 b.1 b.2).foldl (carveVisit (2/5) (1/5)) gg)
    g4
  state.furniture.foldl (rasterizeFurniture state.roomBounds sX sY w h) g5

/-- `Simulation.rasterize(state)`: reset the grid and rewrite it from the
geometry snapshot. -/
noncomputable def rasterize (state : EditorState) (g : Grid) : Grid :=
  rasterizeSized state g.width g.height

/-! ### Potential solver (`Simulation.solve`, bagua.js lines 482-611)

The instance constants are `iterations = 600` and `omega = 1.7`.  The solver's
square-root comparisons are written in their exact squared form:
`dist / maxDist > 0.3` becomes `distSq / maxDistSq > 9/100` and the stored sink
strength `-8 * distRatio^2` is the rational `-8 * distSq / maxDistSq`. -/

/-- The interior cells `(x, y)` with `1 ≤ x ≤ w-2`, `1 ≤ y ≤ h-2`, in the
row-major order of the solver's nested loops. -/
def interiorCells (w h : ℕ) : List (ℕ × ℕ) :=
  ((List.range (h - 2)).map (fun j => j + 1)).flatMap
    (fun y => ((List.range (w - 2)).map (fun i => i + 1)).map (fun x => (x, y)))

/-- The potential initialization loop: `phi[i] = sources[i] > 0 ?
sources[i] * 100 : 0` over all `n = w*h` cells. -/
noncomputable def initPotential (sources : List ℚ) (n : ℕ) : List ℝ :=
  (List.range n).map
    (fun i => if sources.getD i 0 > 0 then ((sources.getD i 0 : ℚ) : ℝ) * 100 else 0)

/-- The door-census loop: interior cells with `sources > 0.5` (their count and
coordinate sums feed the door-centroid). -/
def doorCells (sources : List ℚ) (w h : ℕ) : List (ℕ × ℕ) :=
  (interiorCells w h).filter (fun p => sources.getD (p.2 * w + p.1) 0 > 1/2)

/-- The sink-designation pass: for each interior cell that is not a wall and
not (currently) a positive source, if it touches a wall and its distance ratio
from the door centroid exceeds 0.3, clamp `phi` there to the sink strength and
mark `sources` (mutating the same array the loop reads). -/
noncomputable def sinkPass (cells : List ℚ) (w h : ℕ) (avgX avgY : ℚ)
    (phi0 : List ℝ) (src0 : List ℚ) : List ℝ × List ℚ :=
  (interiorCells w h).foldl
    (fun st p =>
      let i := p.2 * w + p.1
      if 1 ≤ cells.getD i 0 ∨ st.2.getD i 0 > 0 then st
      else
        let nearWall := 1 ≤ cells.getD (i - 1) 0 ∨ 1 ≤ cells.getD (i + 1) 0 ∨
          1 ≤ cells.getD (i - w) 0 ∨ 1 ≤ cells.getD (i + w) 0
        if nearWall then
          let distSq := ((p.1 : ℚ) - avgX)^2 + ((p.2 : ℚ) - avgY)^2
          let maxDistSq := (w : ℚ)^2 + (h : ℚ)^2
          if distSq / maxDistSq > 9/100 then
            let sinkStrength : ℚ := -8 * (distSq / maxDistSq)
            (st.1.set i ((sinkStrength : ℚ) : ℝ), st.2.set i (sinkStrength / 100))
          else st
        else st)
    (phi0, src0)

/-- The body of one SOR update at cell `p`: skip walls and fixed
sources/sinks, blend the 4-neighbor average with the previous value on partial
obstacles, perturb by the flow modifier, then over-relax (ω = 1.7). -/
noncomputable def sorStep (cells sources : List ℚ) (mods : List ℝ) (w : ℕ)
    (ph : List ℝ) (p : ℕ × ℕ) : List ℝ :=
  let i := p.2 * w + p.1
  if 1 ≤ cells.getD i 0 then ph
  else if sources.getD i 0 ≠ 0 then ph
  else
    let avg := (ph.getD (i - 1) 0 + ph.getD (i + 1) 0 + ph.getD (i - w) 0 +
      ph.getD (i + w) 0) / 4
    let c := cells.getD i 0
    let newVal0 := if 0 < c ∧ c < 1 then (1 - (c : ℝ)) * avg + (c : ℝ) * ph.getD i 0
      else avg
    let m := mods.getD i 0
    let newVal := if m > 0 then newVal0 + m * 2
      else if m < 0 then newVal0 + m * 3 else newVal0
    ph.set i (ph.getD i 0 + (17/10) * (newVal - ph.getD i 0))

/-- One in-place SOR sweep over the interior cells. -/
noncomputable def sorSweep (cells sources : List ℚ) (mods : List ℝ) (w h : ℕ)
    (phi : List ℝ) : List ℝ :=
  (interiorCells w h).foldl (sorStep cells sources mods w) phi

/-- Iterated SOR sweeps (the `for (iter = 0; iter < iterations; iter++)` loop). -/
noncomputable def sorIterate (cells sources : List ℚ) (mods : List ℝ) (w h : ℕ) :
    ℕ → List ℝ → List ℝ
  | 0, phi => phi
  | n + 1, phi => sorIterate cells sources mods w h n (sorSweep cells sources mods w h phi)

/-- The velocity-derivation pass: over interior cells, zero out walls, else the
negative central-difference gradient of `phi`, scaled by `1 - resistance` on
partial obstacles, and the speed magnitude. -/
noncomputable def velocityPass (cells : List ℚ) (w h : ℕ) (phi : List ℝ)
    (vx0 vy0 sp0 : List ℝ) : List ℝ × List ℝ × List ℝ :=
  (interiorCells w h).foldl
    (fun st p =>
      let i := p.2 * w + p.1
      if 1 ≤ cells.getD i 0 then (st.1.set i 0, st.2.1.set i 0, st.2.2.set i 0)
      else
        let c := cells.getD i 0
        let f : ℝ := if 0 < c ∧ c < 1 then 1 - (c : ℝ) else 1
        let vxv := -(phi.getD (i + 1) 0 - phi.getD (i - 1) 0) / 2 * f
        let vyv := -(phi.getD (i + w) 0 - phi.getD (i - w) 0) / 2 * f
        (st.1.set i vxv, st.2.1.set i vyv,
          st.2.2.set i (Real.sqrt (vxv^2 + vyv^2))))
    (vx0, vy0, sp0)

/-- `Simulation.solve()`: initialize the potential from the sources, designate
far-from-door sinks when at least one interior cell has `sources > 0.5`, run
600 SOR sweeps, then derive the velocity field.  `cells` and `flowModifier`
are untouched; `sources` receives the sink marks. -/
noncomputable def solve (g : Grid) : Grid :=
  let w := g.width
  let h := g.height
  let phi0 := initPotential g.sources (w * h)
  let dcs := doorCells g.sources w h
  let st1 :=
    if 0 < dcs.length then
      let avgX := ((dcs.map (fun p => (p.1 : ℚ))).sum) / (dcs.length : ℚ)
      let avgY := ((dcs.map (fun p => (p.2 : ℚ))).sum) / (dcs.length : ℚ)
      sinkPass g.cells w h avgX avgY phi0 g.sources
    else (phi0, g.sources)
  let phi := sorIterate g.cells st1.2 g.flowModifier w h 600 st1.1
  let vel := velocityPass g.cells w h phi g.vx g.vy g.speed
  let vxl := vel.1
  let vyl := vel.2.1
  let spl := vel.2.2
  { g with potential := phi, sources := st1.2, vx := vxl, vy := vyl, speed := spl }

/-! ### Particle system (particles.js)

`Math.random()` calls are drawn from an explicit stream; all quantities that
JS computes from them are real-valued.  The per-tick loop iterates the
particle array backward, replacing a dead particle in place when a spawn
succeeds and splicing it out when no source exists; processing the elements
from last to first with the results kept in order is the same computation. -/

/-- A source cell recorded by `findSources` (grid coordinates and strength). -/
structure SrcPos where
  x : ℕ
  y : ℕ
  strength : ℚ
deriving DecidableEq

/-- A tracer particle. -/
structure Particle where
  x : ℝ
  y : ℝ
  trail : List (ℝ × ℝ)
  life : ℝ
  age : ℝ
  maxAge : ℝ
  stagnantFrames : ℕ

/-- An explicit stream of `Math.random()` results. -/
structure Rng where
  seq : ℕ → ℝ
  pos : ℕ

/-- Draw the next random number. -/
def Rng.next (r : Rng) : ℝ × Rng :=
  (r.seq r.pos, ⟨r.seq, r.pos + 1⟩)

/-- The particle system state. -/
structure ParticleSystem where
  grid : Grid
  maxParticles : ℕ
  particles : List Particle
  trailLength : ℕ
  sourcePositions : List SrcPos

/-- The scan performed by `findSources`: push every cell with
`sources[idx(x,y)] > 0.5`, `y` outer, `x` inner. -/
def sourceScan (g : Grid) : List SrcPos :=
  (List.range g.height).flatMap
    (fun y =>
      (List.range g.width).filterMap
        (fun x =>
          if g.sources.getD (y * g.width + x) 0 > 1/2 then
            some ⟨x, y, g.sources.getD (y * g.width + x) 0⟩
          else none))

/-- `ParticleSystem.findSources()`: recompute the spawn-position list. -/
def ParticleSystem.findSources (ps : ParticleSystem) : ParticleSystem :=
  { ps with sourcePositions := sourceScan ps.grid }

/-- `ParticleSystem.reset()`: drop all particles, then `findSources()`. -/
def ParticleSystem.reset (ps : ParticleSystem) : ParticleSystem :=
  ParticleSystem.findSources { ps with particles := [] }

/-- `spawnParticle()`: `null` when no source position exists, otherwise a
fresh particle at a uniformly chosen source cell plus jitter.  The random
index `Math.floor(Math.random() * length)` is in range for stream values in
`[0, 1)`; out-of-range indices fall back to a default, mirroring that the JS
code is only ever exercised on in-range draws. -/
noncomputable def spawnParticle (ps : ParticleSystem) (r : Rng) :
    Option (Particle × Rng) :=
  if ps.sourcePositions.isEmpty then none
  else
    let u := r.next
    let src := ps.sourcePositions.getD
      (⌊u.1 * (ps.sourcePositions.length : ℝ)⌋).toNat ⟨0, 0, 0⟩
    let ux := u.2.next
    let uy := ux.2.next
    let ua := uy.2.next
    some ({ x := (src.x : ℝ) + (ux.1 - 1/2) * 3,
            y := (src.y : ℝ) + (uy.1 - 1/2) * 3,
            trail := [], life := 1, age := 0,
            maxAge := 400 + ua.1 * 600, stagnantFrames := 0 }, ua.2)

/-- `_respawn(i)` as a per-slot action: a successful spawn replaces the slot
(`some`), a failed one splices it out (`none`). -/
noncomputable def respawnSlot (ps : ParticleSystem) (r : Rng) :
    Option Particle × Rng :=
  match spawnParticle ps r with
  | some pr => (some pr.1, pr.2)
  | none => (none, r)

open scoped Classical

/-- Trail bookkeeping at the start of each per-particle step: push the current
position, evicting the oldest entry past the capacity. -/
def pushTrail (trailLength : ℕ) (p0 : Particle) : Particle :=
  let trail1 := p0.trail ++ [(p0.x, p0.y)]
  { p0 with trail := if trail1.length > trailLength then trail1.drop 1 else trail1 }

/-- Advection along the sampled velocity (the `speed > 0.001` branch). -/
noncomputable def advectParticle (p : Particle) (vel : ℝ × ℝ) (moveScale dt : ℝ) :
    Particle :=
  { p with x := p.x + vel.1 * moveScale * dt,
           y := p.y + vel.2 * moveScale * dt,
           stagnantFrames := 0 }

/-- Random drift in a stagnant pocket (the near-zero speed branch). -/
noncomputable def driftParticle (p : Particle) (r : Rng) : Particle × Rng :=
  let j1 := r.next
  let j2 := j1.2.next
  ({ p with x := p.x + (j1.1 - 1/2) * (3/20),
            y := p.y + (j2.1 - 1/2) * (3/20),
            stagnantFrames := p.stagnantFrames + 1 }, j2.2)

/-- Aging and life decay: `age += dt`, `life = max(0, 1 - age/maxAge)`, extra
decay after more than 60 stagnant frames. -/
noncomputable def ageParticle (dt : ℝ) (p1 : Particle) : Particle :=
  let p2 := { p1 with age := p1.age + dt }
  let p3 := { p2 with life := max 0 (1 - p2.age / p2.maxAge) }
  if p3.stagnantFrames > 60 then { p3 with life := p3.life - 1/50 } else p3

/-- The per-particle body of `update(dt)`: push the trail, kill on wall or
out-of-bounds cell, advect by the sampled velocity (or jitter in stagnant
pockets), age, decay life, and respawn on death. -/
noncomputable def updateParticle (ps : ParticleSystem) (moveScale dt : ℝ)
    (p0 : Particle) (r : Rng) : Option Particle × Rng :=
  let g := ps.grid
  let p := pushTrail ps.trailLength p0
  if ¬ g.inBounds ⌊p.x⌋ ⌊p.y⌋ ∨ g.isWall ⌊p.x⌋ ⌊p.y⌋ then respawnSlot ps r
  else
    let vel := g.getVelocityAt p.x p.y
    let sp := Real.sqrt (vel.1^2 + vel.2^2)
    let step : Particle × Rng :=
      if sp > 1/1000 then (advectParticle p vel moveScale dt, r)
      else driftParticle p r
    let p4 := ageParticle dt step.1
    if p4.life ≤ 0 ∨ p4.age > p4.maxAge ∨ ¬ g.inBounds ⌊p4.x⌋ ⌊p4.y⌋ then
      respawnSlot ps step.2
    else (some p4, step.2)

/-- The backward per-particle loop of `update`: elements are processed from
last to first (matching the descending index loop) and the surviving or
replaced particles keep their positions; spliced slots disappear. -/
noncomputable def updateLoop (ps : ParticleSystem) (moveScale dt : ℝ) :
    List Particle → Rng → List Particle × Rng
  | [], r => ([], r)
  | p :: rest, r =>
      let tail := updateLoop ps moveScale dt rest r
      match updateParticle ps moveScale dt p tail.2 with
      | (some p1, r2) => (p1 :: tail.1, r2)
      | (none, r2) => (tail.1, r2)

/-- The spawn loop of `update`: `while (particles.length < maxParticles)`
push a spawned particle, breaking when `spawnParticle()` returns `null`.  The
fuel is the exact number of pushes the guard admits. -/
noncomputable def spawnLoop (ps : ParticleSystem) :
    ℕ → List Particle → Rng → List Particle × Rng
  | 0, l, r => (l, r)
  | n + 1, l, r =>
      match spawnParticle ps r with
      | none => (l, r)
      | some pr => spawnLoop ps n (l ++ [pr.1]) pr.2

/-- `ParticleSystem.update(dt)`: normalization scale from the grid's maximum
speed, top-up spawning to the cap, then the per-particle pass. -/
noncomputable def ParticleSystem.update (ps : ParticleSystem) (dt : ℝ) (r : Rng) :
    ParticleSystem × Rng :=
  let maxSpeed := ps.grid.getMaxSpeed
  let moveScale := if maxSpeed > 0 then (3/2) / maxSpeed else 1
  let spawned := spawnLoop ps (ps.maxParticles - ps.particles.length) ps.particles r
  let stepped := updateLoop ps moveScale dt spawned.1 spawned.2
  ({ ps with particles := stepped.1 }, stepped.2)

/-- Repeated animation ticks: `update(dt)` applied `n` times. -/
noncomputable def updateIter (dt : ℝ) : ℕ → ParticleSystem × Rng → ParticleSystem × Rng
  | 0, s => s
  | n + 1, s => updateIter dt n (s.1.update dt s.2)

/-! ### C4: sampler exactness at integer coordinates -/

/-- C4: for every integer grid coordinate `(x, y)` within bounds,
`getVelocityAt(x, y)` returns exactly the same vector as `getVelocity(x, y)`:
the bilinear interpolation is degenerate at integer inputs. -/
theorem getVelocityAt_integer_exact (g : Grid) (x y : ℤ) (_h : g.inBounds x y) :
    g.getVelocityAt (x : ℝ) (y : ℝ) = g.getVelocity x y := by
  have hx : ⌊(x : ℝ)⌋ = x := Int.floor_intCast x
  have hy : ⌊(y : ℝ)⌋ = y := Int.floor_intCast y
  simp only [Grid.getVelocityAt, hx, hy, sub_self]
  norm_num

/-- Witness for C4 at a concrete grid and coordinate. -/
theorem getVelocityAt_integer_exact_witness :
    (Grid.make 2 2).inBounds 0 0 ∧
      (Grid.make 2 2).getVelocityAt ((0 : ℤ) : ℝ) ((0 : ℤ) : ℝ) =
        (Grid.make 2 2).getVelocity 0 0 :=
  ⟨by decide, getVelocityAt_integer_exact (Grid.make 2 2) 0 0 (by decide)⟩

/-! ### C5: out-of-bounds queries return zero; the sampler is total -/

/-- C5: for every integer coordinate outside the grid bounds, `getVelocity`
returns the zero vector and `getSpeed` returns 0; consequently
`getVelocityAt`, a total function on real inputs, returns the zero vector
whenever all four enclosing integer cells are out of bounds. -/
theorem oob_queries_zero (g : Grid) :
    (∀ x y : ℤ, ¬ g.inBounds x y → g.getVelocity x y = (0, 0) ∧ g.getSpeed x y = 0) ∧
      (∀ fx fy : ℝ,
        ¬ g.inBounds ⌊fx⌋ ⌊fy⌋ → ¬ g.inBounds (⌊fx⌋ + 1) ⌊fy⌋ →
        ¬ g.inBounds ⌊fx⌋ (⌊fy⌋ + 1) → ¬ g.inBounds (⌊fx⌋ + 1) (⌊fy⌋ + 1) →
        g.getVelocityAt fx fy = (0, 0)) := by
  constructor
  · intro x y h
    constructor
    · simp [Grid.getVelocity, h]
    · simp [Grid.getSpeed, h]
  · intro fx fy h00 h10 h01 h11
    simp only [Grid.getVelocityAt, Grid.getVelocity, if_neg h00, if_neg h10,
      if_neg h01, if_neg h11]
    norm_num

/-- Witness for C5 at a concrete grid, an out-of-bounds integer coordinate and
an out-of-bounds sample point. -/
theorem oob_queries_zero_witness :
    (Grid.make 2 2).getVelocity (-1) 0 = (0, 0) ∧ (Grid.make 2 2).getSpeed (-1) 0 = 0 ∧
      (Grid.make 2 2).getVelocityAt ((-5 : ℤ) : ℝ) ((7 : ℤ) : ℝ) = (0, 0) := by
  have hfx : ⌊((-5 : ℤ) : ℝ)⌋ = (-5 : ℤ) := Int.floor_intCast _
  have hfy : ⌊((7 : ℤ) : ℝ)⌋ = (7 : ℤ) := Int.floor_intCast _
  refine ⟨((oob_queries_zero (Grid.make 2 2)).1 (-1) 0 (by decide)).1,
    ((oob_queries_zero (Grid.make 2 2)).1 (-1) 0 (by decide)).2,
    (oob_queries_zero (Grid.make 2 2)).2 _ _ ?_ ?_ ?_ ?_⟩ <;>
      rw [hfx, hfy] <;> decide

/-! ### C6: rasterization is deterministic and idempotent -/

theorem dims_setWall (g : Grid) (x y : ℤ) :
    (g.setWall x y).width = g.width ∧ (g.setWall x y).height = g.height := by
  unfold Grid.setWall
  split <;> exact ⟨rfl, rfl⟩

theorem dims_setObstacle (g : Grid) (x y : ℤ) (r : ℚ) :
    (g.setObstacle x y r).width = g.width ∧ (g.setObstacle x y r).height = g.height := by
  unfold Grid.setObstacle
  split <;> exact ⟨rfl, rfl⟩

theorem dims_setSource (g : Grid) (x y : ℤ) (st : ℚ) :
    (g.setSource x y st).width = g.width ∧ (g.setSource x y st).height = g.height := by
  unfold Grid.setSource
  split <;> exact ⟨rfl, rfl⟩

theorem dims_setFlowModifier (g : Grid) (x y : ℤ) (m : ℝ) :
    (g.setFlowModifier x y m).width = g.width ∧ (g.setFlowModifier x y m).height = g.height := by
  unfold Grid.setFlowModifier
  split <;> exact ⟨rfl, rfl⟩

theorem dims_foldl {α : Type _} (f : Grid → α → Grid) (l : List α) (b : Grid) (w h : ℕ)
    (hb : b.width = w ∧ b.height = h)
    (hf : ∀ x ∈ l, ∀ acc : Grid, acc.width = w ∧ acc.height = h →
      (f acc x).width = w ∧ (f acc x).height = h) :
    (l.foldl f b).width = w ∧ (l.foldl f b).height = h :=
  foldl_preserves (fun gg => gg.width = w ∧ gg.height = h) f l b hb hf

theorem dims_wallVisit (g : Grid) (p : ℤ × ℤ) :
    (wallVisit g p).width = g.width ∧ (wallVisit g p).height = g.height := by
  unfold wallVisit
  refine ⟨?_, ?_⟩ <;>
    simp [dims_setWall _ _ _ |>.1, dims_setWall _ _ _ |>.2]

theorem dims_carveVisit (s ns : ℚ) (g : Grid) (p : ℤ × ℤ) :
    (carveVisit s ns g p).width = g.width ∧ (carveVisit s ns g p).height = g.height := by
  unfold carveVisit
  dsimp only []
  apply dims_foldl
  · split
    · exact ⟨(dims_setSource _ _ _ _).1, (dims_setSource _ _ _ _).2⟩
    · exact ⟨rfl, rfl⟩
  · intro d _ acc hacc
    split
    · refine ⟨?_, ?_⟩
      · rw [(dims_setSource _ _ _ _).1]
        exact hacc.1
      · rw [(dims_setSource _ _ _ _).2]
        exact hacc.2
    · exact hacc

theorem dims_rasterizeFurniture (rb : Rect) (sX sY : ℚ) (w h : ℕ) (g : Grid)
    (item : FurnitureItem) :
    (rasterizeFurniture rb sX sY w h g item).width = g.width ∧
      (rasterizeFurniture rb sX sY w h g item).height = g.height := by
  unfold rasterizeFurniture
  dsimp only []
  have hbox : ∀ gacc : Grid,
      ((intRange (max 1 (toGrid rb sX sY item.x item.y).2)
          (min ((h : ℤ) - 2) (toGrid rb sX sY (item.x + item.width) (item.y + item.height)).2)).foldl
        (fun gy_acc gy =>
          (intRange (max 1 (toGrid rb sX sY item.x item.y).1)
              (min ((w : ℤ) - 2) (toGrid rb sX sY (item.x + item.width) (item.y + item.height)).1)).foldl
            (fun gx_acc gx =>
              match item.ftype with
              | FurnKind.mirror => gx_acc.setSource gx gy (3/10)
              | FurnKind.plant => gx_acc.setFlowModifier gx gy (1/2)
              | FurnKind.rug => (gx_acc.setObstacle gx gy (3/20)).setFlowModifier gx gy (1/5)
              | FurnKind.other => gx_acc.setObstacle gx gy (resistOrDefault item.flowResistance))
            gy_acc)
        gacc).width = gacc.width ∧
      ((intRange (max 1 (toGrid rb sX sY item.x item.y).2)
          (min ((h : ℤ) - 2) (toGrid rb sX sY (item.x + item.width) (item.y + item.height)).2)).foldl
        (fun gy_acc gy =>
          (intRange (max 1 (toGrid rb sX sY item.x item.y).1)
              (min ((w : ℤ) - 2) (toGrid rb sX sY (item.x + item.width) (item.y + item.height)).1)).foldl
            (fun gx_acc gx =>
              match item.ftype with
              | FurnKind.mirror => gx_acc.setSource gx gy (3/10)
              | FurnKind.plant => gx_acc.setFlowModifier gx gy (1/2)
              | FurnKind.rug => (gx_acc.setObstacle gx gy (3/20)).setFlowModifier gx gy (1/5)
              | FurnKind.other => gx_acc.setObstacle gx gy (resistOrDefault item.flowResistance))
            gy_acc)
        gacc).height = gacc.height := by
    intro gacc
    apply dims_foldl
    · exact ⟨rfl, rfl⟩
    · intro gy _ acc hacc
      apply dims_foldl
      · exact hacc
      · intro gx _ acc2 hacc2
        rcases item.ftype with _ | _ | _ | _ <;> simp only []
        · exact ⟨by rw [(dims_setSource _ _ _ _).1]; exact hacc2.1,
            by rw [(dims_setSource _ _ _ _).2]; exact hacc2.2⟩
        · exact ⟨by rw [(dims_setFlowModifier _ _ _ _).1]; exact hacc2.1,
            by rw [(dims_setFlowModifier _ _ _ _).2]; exact hacc2.2⟩
        · exact ⟨by rw [(dims_setFlowModifier _ _ _ _).1, (dims_setObstacle _ _ _ _).1]; exact hacc2.1,
            by rw [(dims_setFlowModifier _ _ _ _).2, (dims_setObstacle _ _ _ _).2]; exact hacc2.2⟩
        · exact ⟨by rw [(dims_setObstacle _ _ _ _).1]; exact hacc2.1,
            by rw [(dims_setObstacle _ _ _ _).2]; exact hacc2.2⟩
  split
  · apply dims_foldl
    · exact hbox g
    · intro c _ acc hacc
      apply dims_foldl
      · exact hacc
      · intro dy _ acc1 hacc1
        apply dims_foldl
        · exact hacc1
        · intro dx _ acc2 hacc2
          split
          · exact ⟨by rw [(dims_setFlowModifier _ _ _ _).1]; exact hacc2.1,
              by rw [(dims_setFlowModifier _ _ _ _).2]; exact hacc2.2⟩
          · exact hacc2
  · exact hbox g

theorem dims_rasterizeSized (st : EditorState) (w h : ℕ) :
    (rasterizeSized st w h).width = w ∧ (rasterizeSized st w h).height = h := by
  unfold rasterizeSized
  dsimp only []
  apply dims_foldl
  · apply dims_foldl
    · apply dims_foldl
      · apply dims_foldl
        · apply dims_foldl
          · apply dims_foldl
            · exact ⟨rfl, rfl⟩
            · intro x _ acc hacc
              exact ⟨by rw [(dims_setWall _ _ _).1, (dims_setWall _ _ _).1]; exact hacc.1,
                by rw [(dims_setWall _ _ _).2, (dims_setWall _ _ _).2]; exact hacc.2⟩
          · intro y _ acc hacc
            exact ⟨by rw [(dims_setWall _ _ _).1, (dims_setWall _ _ _).1]; exact hacc.1,
              by rw [(dims_setWall _ _ _).2, (dims_setWall _ _ _).2]; exact hacc.2⟩
        · intro sg _ acc hacc
          apply dims_foldl
          · exact hacc
          · intro p _ acc1 hacc1
            exact ⟨by rw [(dims_wallVisit _ _).1]; exact hacc1.1,
              by rw [(dims_wallVisit _ _).2]; exact hacc1.2⟩
      · intro sg _ acc hacc
        apply dims_foldl
        · exact hacc
        · intro p _ acc1 hacc1
          exact ⟨by rw [(dims_carveVisit _ _ _ _).1]; exact hacc1.1,
            by rw [(dims_carveVisit _ _ _ _).2]; exact hacc1.2⟩
    · intro sg _ acc hacc
      apply dims_foldl
      · exact hacc
      · intro p _ acc1 hacc1
        exact ⟨by rw [(dims_carveVisit _ _ _ _).1]; exact hacc1.1,
          by rw [(dims_carveVisit _ _ _ _).2]; exact hacc1.2⟩
  · intro item _ acc hacc
    exact ⟨by rw [(dims_rasterizeFurniture _ _ _ _ _ _ _).1]; exact hacc.1,
      by rw [(dims_rasterizeFurniture _ _ _ _ _ _ _).2]; exact hacc.2⟩

/-- C6: `rasterize` is deterministic (it is a pure function of the geometry
snapshot and the grid dimensions) and idempotent: rasterizing twice with the
identical snapshot yields bit-identical contents of every Grid array, because
the first action of `rasterize` is a full reset of every array. -/
theorem rasterize_idempotent (st : EditorState) (g : Grid) :
    rasterize st (rasterize st g) = rasterize st g := by
  unfold rasterize
  rw [(dims_rasterizeSized st g.width g.height).1, (dims_rasterizeSized st g.width g.height).2]

/-! ### C2: which arrays does `solve` mutate? -/

/-- A zero-length door segment placed one cell inside the room corner. -/
def doorSeg8 : Seg := ⟨1, 1, 1, 1⟩

/-- An 8x8 room whose only geometry is the single door segment. -/
def door8State : EditorState := ⟨[], [doorSeg8], [], [], ⟨0, 0, 8, 8⟩⟩

/-- The corresponding rasterized grid. -/
noncomputable def door8Grid : Grid := rasterize door8State (Grid.make 8 8)

attribute [local semireducible] Rat.add Rat.sub Rat.mul Rat.inv Rat.ofScientific in
set_option maxRecDepth 40000 in
/-- Counterexample to C2: on this rasterized grid `solve()` rewrites the
`source` array — the sink-designation step stores `sinkStrength / 100` into
`sources` at wall-adjacent cells far from the door centroid (bagua.js line
537), so the arrays are not bit-identical across `solve()`. -/
theorem solve_mutates_sources_cex :
    (solve door8Grid).sources ≠ door8Grid.sources := by
  decide

/-- Amended C2: `solve()` never mutates the `material` (`cells`) array nor
`flowModifier`; and it leaves `source` unchanged whenever no interior cell has
`source > 0.5` (when such a cell exists, the sink-designation step may write
negative sink strengths into `source`). -/
theorem solve_frame (g : Grid) :
    (solve g).cells = g.cells ∧ (solve g).flowModifier = g.flowModifier ∧
      ((∀ p ∈ interiorCells g.width g.height,
          g.sources.getD (p.2 * g.width + p.1) 0 ≤ 1/2) →
        (solve g).sources = g.sources) := by
  refine ⟨rfl, rfl, fun hle => ?_⟩
  have hdc : doorCells g.sources g.width g.height = [] := by
    rw [doorCells, List.filter_eq_nil_iff]
    intro p hp
    simp only [decide_eq_true_eq, not_lt]
    exact hle p hp
  show ((if 0 < (doorCells g.sources g.width g.height).length then
      sinkPass g.cells g.width g.height _ _
        (initPotential g.sources (g.width * g.height)) g.sources
    else (initPotential g.sources (g.width * g.height), g.sources)).2) = g.sources
  rw [hdc]
  simp

attribute [local semireducible] Rat.add Rat.sub Rat.mul Rat.inv Rat.ofScientific in
/-- Witness for the amended C2 on a concrete grid with no strong sources. -/
theorem solve_frame_witness :
    (solve (Grid.make 3 3)).cells = (Grid.make 3 3).cells ∧
      (solve (Grid.make 3 3)).sources = (Grid.make 3 3).sources :=
  ⟨(solve_frame (Grid.make 3 3)).1,
    (solve_frame (Grid.make 3 3)).2.2 (by decide)⟩

/-! ### C1: the border-ring invariant -/

theorem getD_set_cases (l : List ℚ) (i j : ℕ) (a : ℚ) :
    (l.set i a).getD j 0 = if i = j ∧ i < l.length then a else l.getD j 0 := by
  by_cases hij : i = j
  · subst hij
    by_cases hlt : i < l.length
    · simp [List.getD, List.getElem?_set_self hlt, hlt]
    · rw [List.set_eq_of_length_le (le_of_not_lt hlt)]
      simp [hlt]
  · rw [getD_set_ne hij]
    simp [hij]

theorem mem_intRange {a b v : ℤ} : v ∈ intRange a b ↔ a ≤ v ∧ v ≤ b := by
  unfold intRange
  simp only [List.mem_map, List.mem_range]
  constructor
  · rintro ⟨k, hk, rfl⟩
    omega
  · rintro ⟨h1, h2⟩
    exact ⟨(v - a).toNat, by omega, by omega⟩

theorem idx_lt {w h : ℕ} {x y : ℤ} (hx : 0 ≤ x) (hx2 : x < w) (hy : 0 ≤ y) (hy2 : y < h) :
    (y * w + x).toNat < w * h := by
  have hw : (0 : ℤ) < w := lt_of_le_of_lt hx hx2
  have h1 : y * w + x < h * w := by
    have : y * w ≤ (h - 1) * w := mul_le_mul_of_nonneg_right (by omega) (le_of_lt hw)
    have h2 : (h - 1) * (w : ℤ) = h * w - w := by ring
    omega
  have h3 : ((y * w + x).toNat : ℤ) = y * w + x := Int.toNat_of_nonneg (by positivity)
  have : ((y * w + x).toNat : ℤ) < ((w * h : ℕ) : ℤ) := by
    push_cast
    rw [h3]
    push_cast at h1
    linarith
  exact_mod_cast this

theorem idx_inj {w h : ℕ} {x y a b : ℤ} (hx : 0 ≤ x) (hx2 : x < w) (hy : 0 ≤ y) (_hy2 : y < h)
    (ha : 0 ≤ a) (ha2 : a < w) (hb : 0 ≤ b) (_hb2 : b < h)
    (heq : (y * w + x).toNat = (b * w + a).toNat) : x = a ∧ y = b := by
  have hw : (0 : ℤ) < w := lt_of_le_of_lt hx hx2
  have h1 : ((y * w + x).toNat : ℤ) = y * w + x := Int.toNat_of_nonneg (by positivity)
  have h2 : ((b * w + a).toNat : ℤ) = b * w + a := Int.toNat_of_nonneg (by positivity)
  have heqz : y * w + x = b * w + a := by
    rw [← h1, ← h2]
    exact_mod_cast heq
  have hxa : x = a := by
    have e1 : (y * w + x) % w = x := by
      rw [add_comm, mul_comm, Int.add_mul_emod_self_left]
      exact Int.emod_eq_of_lt hx hx2
    have e2 : (b * w + a) % w = a := by
      rw [add_comm, mul_comm, Int.add_mul_emod_self_left]
      exact Int.emod_eq_of_lt ha ha2
    rw [← e1, ← e2, heqz]
  refine ⟨hxa, ?_⟩
  subst hxa
  have : y * (w : ℤ) = b * w := by omega
  exact mul_right_cancel₀ (by omega) this

theorem foldl_establishes_inv {α β : Type _} (Inv P : β → Prop) (f : β → α → β) :
    ∀ (l : List α) (b : β) (a0 : α), a0 ∈ l → Inv b →
      (∀ x ∈ l, ∀ acc, Inv acc → Inv (f acc x)) →
      (∀ acc, Inv acc → Inv (f acc a0) ∧ P (f acc a0)) →
      (∀ x ∈ l, ∀ acc, Inv acc → P acc → P (f acc x)) →
      Inv (l.foldl f b) ∧ P (l.foldl f b)
  | [], _, _, ha, _, _, _, _ => absurd ha (List.not_mem_nil _)
  | hd :: t, b, a0, ha, hInv, hInvStep, hest, hP => by
      rcases List.mem_cons.mp ha with h1 | h1
      · subst h1
        have h0 := hest b hInv
        have hand := foldl_preserves (fun gg => Inv gg ∧ P gg) f t (f b a0) h0
          (fun x hx acc hacc => ⟨hInvStep x (List.mem_cons_of_mem _ hx) acc hacc.1,
            hP x (List.mem_cons_of_mem _ hx) acc hacc.1 hacc.2⟩)
        exact hand
      · exact foldl_establishes_inv Inv P f t (f b hd) a0 h1
          (hInvStep hd (List.mem_cons_self _ _) b hInv)
          (fun x hx acc hacc => hInvStep x (List.mem_cons_of_mem _ hx) acc hacc)
          hest
          (fun x hx acc hacc hP2 => hP x (List.mem_cons_of_mem _ hx) acc hacc hP2)

/-- Dimension-and-length invariant carried through the rasterization passes. -/
def DimInv (w h : ℕ) (g : Grid) : Prop :=
  g.width = w ∧ g.height = h ∧ g.cells.length = w * h

/-- `DimInv` together with "the cell at index `i0` holds wall material". -/
def WallAt (w h i0 : ℕ) (g : Grid) : Prop :=
  DimInv w h g ∧ g.cells.getD i0 0 = 1

theorem cells_setSource (g : Grid) (x y : ℤ) (st : ℚ) :
    (g.setSource x y st).cells = g.cells := by
  unfold Grid.setSource
  split <;> rfl

theorem cells_setFlowModifier (g : Grid) (x y : ℤ) (m : ℝ) :
    (g.setFlowModifier x y m).cells = g.cells := by
  unfold Grid.setFlowModifier
  split <;> rfl

theorem dimInv_setWall {w h : ℕ} {g : Grid} (hg : DimInv w h g) (x y : ℤ) :
    DimInv w h (g.setWall x y) := by
  unfold Grid.setWall
  split
  · exact ⟨hg.1, hg.2.1, by simp [List.length_set, hg.2.2]⟩
  · exact hg

theorem dimInv_setObstacle {w h : ℕ} {g : Grid} (hg : DimInv w h g) (x y : ℤ) (r : ℚ) :
    DimInv w h (g.setObstacle x y r) := by
  unfold Grid.setObstacle
  split
  · exact ⟨hg.1, hg.2.1, by simp [List.length_set, hg.2.2]⟩
  · exact hg

theorem dimInv_setSource {w h : ℕ} {g : Grid} (hg : DimInv w h g) (x y : ℤ) (st : ℚ) :
    DimInv w h (g.setSource x y st) := by
  refine ⟨?_, ?_, ?_⟩
  · rw [(dims_setSource g x y st).1]
    exact hg.1
  · rw [(dims_setSource g x y st).2]
    exact hg.2.1
  · rw [cells_setSource]
    exact hg.2.2

theorem dimInv_setFlowModifier {w h : ℕ} {g : Grid} (hg : DimInv w h g) (x y : ℤ) (m : ℝ) :
    DimInv w h (g.setFlowModifier x y m) := by
  refine ⟨?_, ?_, ?_⟩
  · rw [(dims_setFlowModifier g x y m).1]
    exact hg.1
  · rw [(dims_setFlowModifier g x y m).2]
    exact hg.2.1
  · rw [cells_setFlowModifier]
    exact hg.2.2

/-- A `setWall` write (value 1) can never destroy wall material at any index. -/
theorem wallAt_setWall {w h i0 : ℕ} {g : Grid} (hg : WallAt w h i0 g) (x y : ℤ) :
    WallAt w h i0 (g.setWall x y) := by
  refine ⟨dimInv_setWall hg.1 x y, ?_⟩
  unfold Grid.setWall
  split
  · show (g.cells.set _ 1).getD i0 0 = 1
    rw [getD_set_cases]
    split
    · rfl
    · exact hg.2
  · exact hg.2

/-- The orthogonal neighbors of a visited cell, in carve order. -/
def orthNeighbors (p : ℤ × ℤ) : List (ℤ × ℤ) :=
  orthOffsets.map (fun d => (p.1 + d.1, p.2 + d.2))

/-- The cells whose wall material a door or window segment may clear: the
cells visited by its Bresenham walk together with their orthogonal
neighbors (this is the write footprint of the door/window carve passes). -/
def segCarved (rb : Rect) (sX sY : ℚ) (s : Seg) : List (ℤ × ℤ) :=
  let a := toGrid rb sX sY s.x1 s.y1
  let b := toGrid rb sX sY s.x2 s.y2
  let pts := rasterizeLine a.1 a.2 b.1 b.2
  pts ++ pts.flatMap orthNeighbors

/-- All cells carved by any door or window segment of the snapshot. -/
def carvedCells (st : EditorState) (w h : ℕ) : List (ℤ × ℤ) :=
  (st.doors ++ st.windows).flatMap
    (segCarved st.roomBounds ((w : ℚ) / st.roomBounds.width) ((h : ℚ) / st.roomBounds.height))

theorem getD_one_setWall {i0 : ℕ} {g : Grid} (h : g.cells.getD i0 0 = 1) (a b : ℤ) :
    (g.setWall a b).cells.getD i0 0 = 1 := by
  unfold Grid.setWall
  split
  · show (g.cells.set _ 1).getD i0 0 = 1
    rw [getD_set_cases]
    split
    · rfl
    · exact h
  · exact h

theorem wallAt_setSource {w h i0 : ℕ} {g : Grid} (hg : WallAt w h i0 g) (x y : ℤ) (st : ℚ) :
    WallAt w h i0 (g.setSource x y st) :=
  ⟨dimInv_setSource hg.1 x y st, by rw [cells_setSource]; exact hg.2⟩

theorem wallAt_setFlowModifier {w h i0 : ℕ} {g : Grid} (hg : WallAt w h i0 g) (x y : ℤ)
    (m : ℝ) : WallAt w h i0 (g.setFlowModifier x y m) :=
  ⟨dimInv_setFlowModifier hg.1 x y m, by rw [cells_setFlowModifier]; exact hg.2⟩

theorem wallAt_wallVisit {w h i0 : ℕ} {g : Grid} (hg : WallAt w h i0 g) (p : ℤ × ℤ) :
    WallAt w h i0 (wallVisit g p) :=
  wallAt_setWall (wallAt_setWall (wallAt_setWall (wallAt_setWall (wallAt_setWall hg _ _) _ _) _ _) _ _) _ _

/-- Writing any material value at a cell distinct from the target (x, y)
preserves the target's wall material. -/
theorem wallAt_set_ne {w h i0 : ℕ} {x y : ℤ} {g : Grid} (hg : WallAt w h i0 g)
    (hxy : 0 ≤ x ∧ x < (w : ℤ) ∧ 0 ≤ y ∧ y < (h : ℤ)) (hi0 : i0 = (y * w + x).toNat)
    (a b : ℤ) (hab : g.inBounds a b) (hne : ¬ (a = x ∧ b = y)) (v : ℚ) :
    (g.cells.set (g.idx a b) v).getD i0 0 = 1 := by
  obtain ⟨hdw, hdh, _hdl⟩ := hg.1
  have hab2 : 0 ≤ a ∧ a < (w : ℤ) ∧ 0 ≤ b ∧ b < (h : ℤ) := by
    obtain ⟨q1, q2, q3, q4⟩ := hab
    rw [hdw] at q2
    rw [hdh] at q4
    exact ⟨q1, q2, q3, q4⟩
  have hidx : g.idx a b ≠ i0 := by
    intro hcontra
    rw [Grid.idx, hdw, hi0] at hcontra
    obtain ⟨he1, he2⟩ := idx_inj hab2.1 hab2.2.1 hab2.2.2.1 hab2.2.2.2
      hxy.1 hxy.2.1 hxy.2.2.1 hxy.2.2.2 hcontra
    exact hne ⟨he1, he2⟩
  rw [getD_set_cases]
  split
  · rename_i hcond
    exact absurd hcond.1 hidx
  · exact hg.2

theorem wallAt_setObstacle_ne {w h i0 : ℕ} {x y : ℤ} {g : Grid} (hg : WallAt w h i0 g)
    (hxy : 0 ≤ x ∧ x < (w : ℤ) ∧ 0 ≤ y ∧ y < (h : ℤ)) (hi0 : i0 = (y * w + x).toNat)
    (a b : ℤ) (hne : ¬ (a = x ∧ b = y)) (v : ℚ) :
    WallAt w h i0 (g.setObstacle a b v) := by
  refine ⟨dimInv_setObstacle hg.1 a b v, ?_⟩
  unfold Grid.setObstacle
  split
  · rename_i hin
    exact wallAt_set_ne hg hxy hi0 a b hin hne v
  · exact hg.2

/-- The carve action of the door/window passes preserves wall material at a
target cell that is neither the visited cell nor one of its neighbors. -/
theorem wallAt_carveVisit {w h i0 : ℕ} {x y : ℤ} (s ns : ℚ) (g : Grid) (p : ℤ × ℤ)
    (hxy : 0 ≤ x ∧ x < (w : ℤ) ∧ 0 ≤ y ∧ y < (h : ℤ)) (hi0 : i0 = (y * w + x).toNat)
    (hnev : (x, y) ≠ p) (hnen : (x, y) ∉ orthNeighbors p)
    (hg : WallAt w h i0 g) : WallAt w h i0 (carveVisit s ns g p) := by
  unfold carveVisit
  dsimp only
  apply foldl_preserves (WallAt w h i0)
  · split
    · rename_i hin
      apply wallAt_setSource
      refine ⟨⟨hg.1.1, hg.1.2.1, by simp [List.length_set, hg.1.2.2]⟩, ?_⟩
      apply wallAt_set_ne hg hxy hi0 p.1 p.2 hin
      intro hcontra
      exact hnev (by rw [Prod.ext_iff]; exact ⟨hcontra.1.symm, hcontra.2.symm⟩)
    · exact hg
  · intro d hd acc hacc
    split
    · rename_i hin
      apply wallAt_setSource
      refine ⟨⟨hacc.1.1, hacc.1.2.1, by simp [List.length_set, hacc.1.2.2]⟩, ?_⟩
      apply wallAt_set_ne hacc hxy hi0 (p.1 + d.1) (p.2 + d.2) hin
      intro hcontra
      apply hnen
      unfold orthNeighbors
      rw [List.mem_map]
      exact ⟨d, hd, by
        rw [Prod.mk.injEq]
        exact ⟨hcontra.1, hcontra.2⟩⟩
    · exact hacc

/-- Furniture writes material only on the clamped interior box, which never
meets the outer ring. -/
theorem wallAt_rasterizeFurniture {w h i0 : ℕ} {x y : ℤ} (rb : Rect) (sX sY : ℚ)
    (g : Grid) (item : FurnitureItem)
    (hxy : 0 ≤ x ∧ x < (w : ℤ) ∧ 0 ≤ y ∧ y < (h : ℤ)) (hi0 : i0 = (y * w + x).toNat)
    (hring : x = 0 ∨ x = (w : ℤ) - 1 ∨ y = 0 ∨ y = (h : ℤ) - 1)
    (hg : WallAt w h i0 g) : WallAt w h i0 (rasterizeFurniture rb sX sY w h g item) := by
  have hbox : ∀ gy gx : ℤ, gy ∈ intRange (max 1 (toGrid rb sX sY item.x item.y).2)
        (min ((h : ℤ) - 2) (toGrid rb sX sY (item.x + item.width) (item.y + item.height)).2) →
      gx ∈ intRange (max 1 (toGrid rb sX sY item.x item.y).1)
        (min ((w : ℤ) - 2) (toGrid rb sX sY (item.x + item.width) (item.y + item.height)).1) →
      ¬ (gx = x ∧ gy = y) := by
    intro gy gx hgy hgx hcontra
    rw [mem_intRange] at hgy hgx
    have h1 : 1 ≤ gx ∧ gx ≤ (w : ℤ) - 2 := ⟨le_trans (le_max_left _ _) hgx.1,
      le_trans hgx.2 (min_le_left _ _)⟩
    have h2 : 1 ≤ gy ∧ gy ≤ (h : ℤ) - 2 := ⟨le_trans (le_max_left _ _) hgy.1,
      le_trans hgy.2 (min_le_left _ _)⟩
    omega
  unfold rasterizeFurniture
  dsimp only
  split
  · apply foldl_preserves (WallAt w h i0)
    · apply foldl_preserves (WallAt w h i0)
      · exact hg
      · intro gy hgy acc hacc
        apply foldl_preserves (WallAt w h i0)
        · exact hacc
        · intro gx hgx acc2 hacc2
          rcases hft : item.ftype with _ | _ | _ | _ <;> simp only [hft]
          · exact wallAt_setSource hacc2 _ _ _
          · exact wallAt_setFlowModifier hacc2 _ _ _
          · exact wallAt_setFlowModifier
              (wallAt_setObstacle_ne hacc2 hxy hi0 _ _ (hbox gy gx hgy hgx) _) _ _ _
          · exact wallAt_setObstacle_ne hacc2 hxy hi0 _ _ (hbox gy gx hgy hgx) _
    · intro c _ acc hacc
      apply foldl_preserves (WallAt w h i0)
      · exact hacc
      · intro dy _ acc1 hacc1
        apply foldl_preserves (WallAt w h i0)
        · exact hacc1
        · intro dx _ acc2 hacc2
          split
          · exact wallAt_setFlowModifier hacc2 _ _ _
          · exact hacc2
  · apply foldl_preserves (WallAt w h i0)
    · exact hg
    · intro gy hgy acc hacc
      apply foldl_preserves (WallAt w h i0)
      · exact hacc
      · intro gx hgx acc2 hacc2
        rcases hft : item.ftype with _ | _ | _ | _ <;> simp only [hft]
        · exact wallAt_setSource hacc2 _ _ _
        · exact wallAt_setFlowModifier hacc2 _ _ _
        · exact wallAt_setFlowModifier
            (wallAt_setObstacle_ne hacc2 hxy hi0 _ _ (hbox gy gx hgy hgx) _) _ _ _
        · exact wallAt_setObstacle_ne hacc2 hxy hi0 _ _ (hbox gy gx hgy hgx) _

/-- Establishment: a `setWall` at the target in-bounds cell creates wall
material there. -/
theorem wallAt_establish_setWall {w h i0 : ℕ} {g : Grid} (hg : DimInv w h g) (a b : ℤ)
    (hin : 0 ≤ a ∧ a < (w : ℤ) ∧ 0 ≤ b ∧ b < (h : ℤ)) (hi0 : i0 = (b * w + a).toNat) :
    WallAt w h i0 (g.setWall a b) := by
  refine ⟨dimInv_setWall hg a b, ?_⟩
  unfold Grid.setWall
  rw [if_pos]
  · show (g.cells.set (g.idx a b) 1).getD i0 0 = 1
    have hidx : g.idx a b = i0 := by
      rw [Grid.idx, hg.1, hi0]
    rw [hidx, getD_set_cases, if_pos]
    refine ⟨rfl, ?_⟩
    rw [hg.2.2, hi0]
    exact idx_lt hin.1 hin.2.1 hin.2.2.1 hin.2.2.2
  · show 0 ≤ a ∧ a < (g.width : ℤ) ∧ 0 ≤ b ∧ b < (g.height : ℤ)
    rw [hg.1, hg.2.1]
    exact hin

/-- Membership in the carve footprint, from a door/window Bresenham point. -/
theorem carved_of_pts {st : EditorState} {w h : ℕ} {sg : Seg} {p : ℤ × ℤ}
    (hsg : sg ∈ st.doors ++ st.windows)
    (hp : p ∈ rasterizeLine
      (toGrid st.roomBounds ((w : ℚ) / st.roomBounds.width) ((h : ℚ) / st.roomBounds.height) sg.x1 sg.y1).1
      (toGrid st.roomBounds ((w : ℚ) / st.roomBounds.width) ((h : ℚ) / st.roomBounds.height) sg.x1 sg.y1).2
      (toGrid st.roomBounds ((w : ℚ) / st.roomBounds.width) ((h : ℚ) / st.roomBounds.height) sg.x2 sg.y2).1
      (toGrid st.roomBounds ((w : ℚ) / st.roomBounds.width) ((h : ℚ) / st.roomBounds.height) sg.x2 sg.y2).2) :
    p ∈ carvedCells st w h ∧ ∀ q ∈ orthNeighbors p, q ∈ carvedCells st w h := by
  constructor
  · unfold carvedCells
    rw [List.mem_flatMap]
    refine ⟨sg, hsg, ?_⟩
    unfold segCarved
    dsimp only
    exact List.mem_append_left _ hp
  · intro q hq
    unfold carvedCells
    rw [List.mem_flatMap]
    refine ⟨sg, hsg, ?_⟩
    unfold segCarved
    dsimp only
    refine List.mem_append_right _ ?_
    rw [List.mem_flatMap]
    exact ⟨p, hp, hq⟩

/-- Amended C1 on `rasterizeSized`: every outer-ring cell that is not in the
carve footprint of some door or window segment holds wall material after
rasterization. -/
theorem border_ring_wall_sized (st : EditorState) (w h : ℕ) (x y : ℤ)
    (hb : 0 ≤ x ∧ x < (w : ℤ) ∧ 0 ≤ y ∧ y < (h : ℤ))
    (hring : x = 0 ∨ x = (w : ℤ) - 1 ∨ y = 0 ∨ y = (h : ℤ) - 1)
    (hnc : (x, y) ∉ carvedCells st w h) :
    WallAt w h ((y * w + x).toNat) (rasterizeSized st w h) := by
  have hInv0 : DimInv w h (Grid.make w h) := ⟨rfl, rfl, by simp [Grid.make]⟩
  have hxx : ((x.toNat : ℤ)) = x := Int.toNat_of_nonneg hb.1
  have hyy : ((y.toNat : ℤ)) = y := Int.toNat_of_nonneg hb.2.2.1
  unfold rasterizeSized
  dsimp only
  apply foldl_preserves (WallAt w h ((y * w + x).toNat))
  · apply foldl_preserves (WallAt w h ((y * w + x).toNat))
    · apply foldl_preserves (WallAt w h ((y * w + x).toNat))
      · apply foldl_preserves (WallAt w h ((y * w + x).toNat))
        · -- border folds
          rcases hring with hx0 | hxw | hy0 | hyh
          · -- x = 0: established in the vertical-edges fold
            have hf1 : DimInv w h ((List.range w).foldl
                (fun gg (x' : ℕ) => (gg.setWall (x' : ℤ) 0).setWall (x' : ℤ) ((h : ℤ) - 1))
                (Grid.make w h)) := by
              apply foldl_preserves (DimInv w h)
              · exact hInv0
              · intro x' _ acc hacc
                exact dimInv_setWall (dimInv_setWall hacc _ _) _ _
            refine foldl_establishes_inv (DimInv w h)
              (fun gg => gg.cells.getD ((y * w + x).toNat) 0 = 1) _ _ _ y.toNat
              (List.mem_range.mpr (by omega)) hf1 ?_ ?_ ?_
            · intro y' _ acc hacc
              exact dimInv_setWall (dimInv_setWall hacc _ _) _ _
            · intro acc hacc
              have hest : WallAt w h ((y * w + x).toNat)
                  ((acc.setWall 0 (y.toNat : ℤ)).setWall ((w : ℤ) - 1) (y.toNat : ℤ)) := by
                rw [hyy]
                apply wallAt_setWall
                apply wallAt_establish_setWall hacc 0 y ⟨le_refl 0, by omega, hb.2.2.1, hb.2.2.2⟩
                rw [hx0]
              exact ⟨hest.1, hest.2⟩
            · intro y' _ acc _ hP
              exact getD_one_setWall (getD_one_setWall hP _ _) _ _
          · -- x = w - 1: established in the vertical-edges fold (right edge)
            have hf1 : DimInv w h ((List.range w).foldl
                (fun gg (x' : ℕ) => (gg.setWall (x' : ℤ) 0).setWall (x' : ℤ) ((h : ℤ) - 1))
                (Grid.make w h)) := by
              apply foldl_preserves (DimInv w h)
              · exact hInv0
              · intro x' _ acc hacc
                exact dimInv_setWall (dimInv_setWall hacc _ _) _ _
            refine foldl_establishes_inv (DimInv w h)
              (fun gg => gg.cells.getD ((y * w + x).toNat) 0 = 1) _ _ _ y.toNat
              (List.mem_range.mpr (by omega)) hf1 ?_ ?_ ?_
            · intro y' _ acc hacc
              exact dimInv_setWall (dimInv_setWall hacc _ _) _ _
            · intro acc hacc
              have hest : WallAt w h ((y * w + x).toNat)
                  ((acc.setWall 0 (y.toNat : ℤ)).setWall ((w : ℤ) - 1) (y.toNat : ℤ)) := by
                rw [hyy]
                apply wallAt_establish_setWall (dimInv_setWall hacc 0 y) ((w : ℤ) - 1) y
                  ⟨by omega, by omega, hb.2.2.1, hb.2.2.2⟩
                rw [hxw]
              exact ⟨hest.1, hest.2⟩
            · intro y' _ acc _ hP
              exact getD_one_setWall (getD_one_setWall hP _ _) _ _
          · -- y = 0: established in the horizontal-edges fold, then preserved
            have hf1 : WallAt w h ((y * w + x).toNat) ((List.range w).foldl
                (fun gg (x' : ℕ) => (gg.setWall (x' : ℤ) 0).setWall (x' : ℤ) ((h : ℤ) - 1))
                (Grid.make w h)) := by
              refine foldl_establishes_inv (DimInv w h)
                (fun gg => gg.cells.getD ((y * w + x).toNat) 0 = 1) _ _ _ x.toNat
                (List.mem_range.mpr (by omega)) hInv0 ?_ ?_ ?_
              · intro x' _ acc hacc
                exact dimInv_setWall (dimInv_setWall hacc _ _) _ _
              · intro acc hacc
                have hest : WallAt w h ((y * w + x).toNat)
                    ((acc.setWall (x.toNat : ℤ) 0).setWall (x.toNat : ℤ) ((h : ℤ) - 1)) := by
                  rw [hxx]
                  apply wallAt_setWall
                  apply wallAt_establish_setWall hacc x 0 ⟨hb.1, hb.2.1, le_refl 0, by omega⟩
                  rw [hy0]
                exact ⟨hest.1, hest.2⟩
              · intro x' _ acc _ hP
                exact getD_one_setWall (getD_one_setWall hP _ _) _ _
            apply foldl_preserves (WallAt w h ((y * w + x).toNat))
            · exact hf1
            · intro y' _ acc hacc
              exact wallAt_setWall (wallAt_setWall hacc _ _) _ _
          · -- y = h - 1: established in the horizontal-edges fold, then preserved
            have hf1 : WallAt w h ((y * w + x).toNat) ((List.range w).foldl
                (fun gg (x' : ℕ) => (gg.setWall (x' : ℤ) 0).setWall (x' : ℤ) ((h : ℤ) - 1))
                (Grid.make w h)) := by
              refine foldl_establishes_inv (DimInv w h)
                (fun gg => gg.cells.getD ((y * w + x).toNat) 0 = 1) _ _ _ x.toNat
                (List.mem_range.mpr (by omega)) hInv0 ?_ ?_ ?_
              · intro x' _ acc hacc
                exact dimInv_setWall (dimInv_setWall hacc _ _) _ _
              · intro acc hacc
                have hest : WallAt w h ((y * w + x).toNat)
                    ((acc.setWall (x.toNat : ℤ) 0).setWall (x.toNat : ℤ) ((h : ℤ) - 1)) := by
                  rw [hxx]
                  apply wallAt_establish_setWall (dimInv_setWall hacc x 0) x ((h : ℤ) - 1)
                    ⟨hb.1, hb.2.1, by omega, by omega⟩
                  rw [hyh]
                exact ⟨hest.1, hest.2⟩
              · intro x' _ acc _ hP
                exact getD_one_setWall (getD_one_setWall hP _ _) _ _
            apply foldl_preserves (WallAt w h ((y * w + x).toNat))
            · exact hf1
            · intro y' _ acc hacc
              exact wallAt_setWall (wallAt_setWall hacc _ _) _ _
        · -- wall segments preserve wall material
          intro sg _ acc hacc
          apply foldl_preserves (WallAt w h ((y * w + x).toNat))
          · exact hacc
          · intro p _ acc1 hacc1
            exact wallAt_wallVisit hacc1 p
      · -- door segments: the target is outside the carve footprint
        intro sg hsg acc hacc
        apply foldl_preserves (WallAt w h ((y * w + x).toNat))
        · exact hacc
        · intro p hp acc1 hacc1
          have hc := carved_of_pts (List.mem_append_left _ hsg) hp
          refine wallAt_carveVisit _ _ _ _ hb rfl ?_ ?_ hacc1
          · intro he
            exact hnc (he ▸ hc.1)
          · intro hq
            exact hnc (hc.2 _ hq)
    · -- window segments: same argument
      intro sg hsg acc hacc
      apply foldl_preserves (WallAt w h ((y * w + x).toNat))
      · exact hacc
      · intro p hp acc1 hacc1
        have hc := carved_of_pts (List.mem_append_right _ hsg) hp
        refine wallAt_carveVisit _ _ _ _ hb rfl ?_ ?_ hacc1
        · intro he
          exact hnc (he ▸ hc.1)
        · intro hq
          exact hnc (hc.2 _ hq)
  · -- furniture writes material only strictly inside the ring
    intro item _ acc hacc
    exact wallAt_rasterizeFurniture _ _ _ _ _ hb rfl hring hacc

/-- Amended C1: after `rasterize`, every cell on the outer ring whose
coordinate is not in the carve footprint of a door or window segment has
`material == 1`.  (The unrestricted claim fails: door/window carving clears
wall material at its visited cells and their orthogonal neighbors, which can
include ring cells — see `border_ring_cex`.) -/
theorem border_ring_wall (st : EditorState) (g0 : Grid) (x y : ℤ)
    (hb : 0 ≤ x ∧ x < (g0.width : ℤ) ∧ 0 ≤ y ∧ y < (g0.height : ℤ))
    (hring : x = 0 ∨ x = (g0.width : ℤ) - 1 ∨ y = 0 ∨ y = (g0.height : ℤ) - 1)
    (hnc : (x, y) ∉ carvedCells st g0.width g0.height) :
    (rasterize st g0).cells.getD ((y * g0.width + x).toNat) 0 = 1 :=
  (border_ring_wall_sized st g0.width g0.height x y hb hring hnc).2

/-- A 5x5 room whose only geometry is a zero-length door segment sitting on
the left edge of the ring. -/
def ringDoorState : EditorState := ⟨[], [⟨0, 2, 0, 2⟩], [], [], ⟨0, 0, 5, 5⟩⟩

attribute [local semireducible] Rat.add Rat.sub Rat.mul Rat.inv Rat.ofScientific in
set_option maxRecDepth 40000 in
/-- Counterexample to C1 as stated: the ring cell (0, 2) of this rasterized
5x5 grid has `material = 0`, because the door carve pass cleared it — the
outer ring is not all wall whenever a door or window maps onto it. -/
theorem border_ring_cex :
    (rasterize ringDoorState (Grid.make 5 5)).width = 5 ∧
      (rasterize ringDoorState (Grid.make 5 5)).height = 5 ∧
      (rasterize ringDoorState (Grid.make 5 5)).cells.getD
        ((rasterize ringDoorState (Grid.make 5 5)).idx 0 2) 0 ≠ 1 := by
  refine ⟨(dims_rasterizeSized ringDoorState 5 5).1, (dims_rasterizeSized ringDoorState 5 5).2, ?_⟩
  decide

/-- An empty 3x3 geometry snapshot. -/
def emptyState3 : EditorState := ⟨[], [], [], [], ⟨0, 0, 3, 3⟩⟩

attribute [local semireducible] Rat.add Rat.sub Rat.mul Rat.inv Rat.ofScientific in
/-- Witness for the amended C1 at a concrete ring cell of an empty room. -/
theorem border_ring_wall_witness :
    (rasterize emptyState3 (Grid.make 3 3)).cells.getD
      (((1 : ℤ) * (Grid.make 3 3).width + 0).toNat) 0 = 1 :=
  border_ring_wall emptyState3 (Grid.make 3 3) 0 1 (by decide)
    (Or.inl rfl) (by decide)

/-! ### C8: positive-source cells are clamped throughout `solve` -/

theorem getD_map_range {f : ℕ → ℝ} {n i : ℕ} (h : i < n) :
    ((List.range n).map f).getD i 0 = f i := by
  rw [List.getD_eq_getElem _ _ (by simpa using h)]
  simp

theorem initPotential_getD {sources : List ℚ} {n i : ℕ} (h : i < n) :
    (initPotential sources n).getD i 0 =
      if sources.getD i 0 > 0 then ((sources.getD i 0 : ℚ) : ℝ) * 100 else 0 := by
  unfold initPotential
  exact getD_map_range h

/-- The sink-designation pass never touches a cell whose current source
strength is positive (the loop's own guard skips it). -/
theorem sinkPass_pos_source (cells : List ℚ) (w h : ℕ) (avgX avgY : ℚ)
    (phi0 : List ℝ) (src0 : List ℚ) (i : ℕ) (hpos : 0 < src0.getD i 0) :
    (sinkPass cells w h avgX avgY phi0 src0).1.getD i 0 = phi0.getD i 0 ∧
      (sinkPass cells w h avgX avgY phi0 src0).2.getD i 0 = src0.getD i 0 := by
  unfold sinkPass
  dsimp only
  apply foldl_preserves
    (fun st : List ℝ × List ℚ =>
      st.1.getD i 0 = phi0.getD i 0 ∧ st.2.getD i 0 = src0.getD i 0)
  · exact ⟨rfl, rfl⟩
  · intro p _ st hst
    dsimp only
    split
    · exact hst
    · rename_i hguard
      split
      · split
        · have hji : p.2 * w + p.1 ≠ i := by
            intro he
            apply hguard
            right
            rw [he, hst.2]
            exact hpos
          exact ⟨by rw [getD_set_neR hji]; exact hst.1,
            by rw [getD_set_ne hji]; exact hst.2⟩
        · exact hst
      · exact hst

/-- A SOR sweep leaves the potential unchanged at every cell with a nonzero
source strength (walls included, which are skipped earlier). -/
theorem sorSweep_fixed (cells sources : List ℚ) (mods : List ℝ) (w h : ℕ)
    (phi : List ℝ) (i : ℕ) (hs : sources.getD i 0 ≠ 0) :
    (sorSweep cells sources mods w h phi).getD i 0 = phi.getD i 0 := by
  unfold sorSweep
  apply foldl_preserves (fun ph : List ℝ => ph.getD i 0 = phi.getD i 0)
  · rfl
  · intro p _ ph hph
    unfold sorStep
    dsimp only
    split
    · exact hph
    · split
      · exact hph
      · rename_i hsrc
        have hji : p.2 * w + p.1 ≠ i := by
          intro he
          rw [he] at hsrc
          exact hsrc hs
        rw [getD_set_neR hji]
        exact hph

theorem sorIterate_fixed (cells sources : List ℚ) (mods : List ℝ) (w h : ℕ)
    (i : ℕ) (hs : sources.getD i 0 ≠ 0) :
    ∀ (n : ℕ) (phi : List ℝ),
      (sorIterate cells sources mods w h n phi).getD i 0 = phi.getD i 0
  | 0, _ => rfl
  | n + 1, phi => by
      show (sorIterate cells sources mods w h n (sorSweep cells sources mods w h phi)).getD i 0 =
        phi.getD i 0
      rw [sorIterate_fixed cells sources mods w h i hs n (sorSweep cells sources mods w h phi),
        sorSweep_fixed cells sources mods w h phi i hs]

/-- C8: a cell whose `source` value is positive when `solve()` begins has
`potential = source * 100` when `solve()` returns — the initialization writes
that value, the sink-designation pass and the SOR iteration both skip cells
with nonzero source, and the flow-modifier perturbation is only applied inside
the (skipped) update. -/
theorem solve_pos_source_potential (g : Grid) (i : ℕ) (hi : i < g.width * g.height)
    (hpos : 0 < g.sources.getD i 0) :
    (solve g).potential.getD i 0 = ((g.sources.getD i 0 : ℚ) : ℝ) * 100 := by
  unfold solve
  dsimp only
  split
  · have hsk := sinkPass_pos_source g.cells g.width g.height
      (((doorCells g.sources g.width g.height).map (fun p => (p.1 : ℚ))).sum /
        ((doorCells g.sources g.width g.height).length : ℚ))
      (((doorCells g.sources g.width g.height).map (fun p => (p.2 : ℚ))).sum /
        ((doorCells g.sources g.width g.height).length : ℚ))
      (initPotential g.sources (g.width * g.height)) g.sources i hpos
    rw [sorIterate_fixed _ _ _ _ _ i (by rw [hsk.2]; exact ne_of_gt hpos) 600 _, hsk.1,
      initPotential_getD hi, if_pos hpos]
  · rw [sorIterate_fixed _ _ _ _ _ i (ne_of_gt hpos) 600 _,
      initPotential_getD hi, if_pos hpos]

/-- A 3x3 grid with a single positive source at its middle cell. -/
def c8grid : Grid := { Grid.make 3 3 with sources := (List.replicate 9 (0 : ℚ)).set 4 1 }

attribute [local semireducible] Rat.add Rat.sub Rat.mul Rat.inv Rat.ofScientific in
/-- Witness for C8 on a concrete grid. -/
theorem solve_pos_source_potential_witness :
    (solve c8grid).potential.getD 4 0 = ((c8grid.sources.getD 4 0 : ℚ) : ℝ) * 100 :=
  solve_pos_source_potential c8grid 4 (by decide) (by decide)

/-! ### C7: the velocity-derivation pass -/

theorem getD_set_casesR (l : List ℝ) (i j : ℕ) (a : ℝ) :
    (l.set i a).getD j 0 = if i = j ∧ i < l.length then a else l.getD j 0 := by
  by_cases hij : i = j
  · subst hij
    by_cases hlt : i < l.length
    · simp [List.getD, List.getElem?_set_self hlt, hlt]
    · rw [List.set_eq_of_length_le (le_of_not_lt hlt)]
      simp [hlt]
  · rw [getD_set_neR hij]
    simp [hij]

/-- The obstacle attenuation factor `1 - resistance` (1 on fully open cells). -/
noncomputable def obstacleFactor (c : ℚ) : ℝ :=
  if 0 < c ∧ c < 1 then 1 - (c : ℝ) else 1

/-- The x-velocity the derivation pass stores at cell index `i`. -/
noncomputable def velX (cells : List ℚ) (phi : List ℝ) (i : ℕ) : ℝ :=
  if 1 ≤ cells.getD i 0 then 0
  else -(phi.getD (i + 1) 0 - phi.getD (i - 1) 0) / 2 * obstacleFactor (cells.getD i 0)

/-- The y-velocity the derivation pass stores at cell index `i`. -/
noncomputable def velY (cells : List ℚ) (phi : List ℝ) (w i : ℕ) : ℝ :=
  if 1 ≤ cells.getD i 0 then 0
  else -(phi.getD (i + w) 0 - phi.getD (i - w) 0) / 2 * obstacleFactor (cells.getD i 0)

/-- The speed magnitude the derivation pass stores at cell index `i`. -/
noncomputable def velS (cells : List ℚ) (phi : List ℝ) (w i : ℕ) : ℝ :=
  if 1 ≤ cells.getD i 0 then 0
  else Real.sqrt ((velX cells phi i)^2 + (velY cells phi w i)^2)

/-- Length invariant on the three accumulator arrays of the velocity pass. -/
def VelInv (n : ℕ) (st : List ℝ × List ℝ × List ℝ) : Prop :=
  st.1.length = n ∧ st.2.1.length = n ∧ st.2.2.length = n

/-- The written-values predicate at a fixed index. -/
def VelAt (cells : List ℚ) (phi : List ℝ) (w i : ℕ)
    (st : List ℝ × List ℝ × List ℝ) : Prop :=
  st.1.getD i 0 = velX cells phi i ∧ st.2.1.getD i 0 = velY cells phi w i ∧
    st.2.2.getD i 0 = velS cells phi w i

theorem mem_interiorCells {w h x y : ℕ} :
    (x, y) ∈ interiorCells w h ↔ 1 ≤ x ∧ x ≤ w - 2 ∧ 1 ≤ y ∧ y ≤ h - 2 := by
  unfold interiorCells
  simp only [List.mem_flatMap, List.mem_map, List.mem_range]
  constructor
  · rintro ⟨y1, ⟨j, hj, rfl⟩, x1, ⟨i, hi, rfl⟩, he⟩
    obtain ⟨he1, he2⟩ := Prod.mk.injEq .. ▸ he
    omega
  · rintro ⟨h1, h2, h3, h4⟩
    exact ⟨y, ⟨y - 1, by omega, by omega⟩, ⟨x, ⟨x - 1, by omega, by omega⟩, rfl⟩⟩

/-- The velocity pass writes, at every visited cell, exactly the values
`velX`, `velY`, `velS` of that cell's index: the values read only `cells` and
`phi`, never the accumulated arrays, so the final arrays hold them whatever the
visiting order. -/
theorem velocityPass_getD (cells : List ℚ) (w h : ℕ) (phi vx0 vy0 sp0 : List ℝ)
    (hlen : VelInv (w * h) (vx0, vy0, sp0)) {x y : ℕ}
    (hmem : (x, y) ∈ interiorCells w h) (hidx : y * w + x < w * h) :
    VelAt cells phi w (y * w + x) (velocityPass cells w h phi vx0 vy0 sp0) := by
  unfold velocityPass
  refine (foldl_establishes_inv (VelInv (w * h)) (VelAt cells phi w (y * w + x)) _
    (interiorCells w h) (vx0, vy0, sp0) (x, y) hmem hlen ?_ ?_ ?_).2
  · -- every step preserves the lengths
    intro q _ st hst
    dsimp only
    split
    · exact ⟨by simp [List.length_set, hst.1], by simp [List.length_set, hst.2.1],
        by simp [List.length_set, hst.2.2]⟩
    · exact ⟨by simp [List.length_set, hst.1], by simp [List.length_set, hst.2.1],
        by simp [List.length_set, hst.2.2]⟩
  · -- the step at (x, y) itself establishes the written values
    intro st hst
    dsimp only
    constructor
    · split
      · exact ⟨by simp [List.length_set, hst.1], by simp [List.length_set, hst.2.1],
          by simp [List.length_set, hst.2.2]⟩
      · exact ⟨by simp [List.length_set, hst.1], by simp [List.length_set, hst.2.1],
          by simp [List.length_set, hst.2.2]⟩
    · split
      · rename_i hwall
        refine ⟨?_, ?_, ?_⟩
        · rw [getD_set_casesR, if_pos ⟨rfl, by rw [hst.1]; exact hidx⟩, velX, if_pos hwall]
        · rw [getD_set_casesR, if_pos ⟨rfl, by rw [hst.2.1]; exact hidx⟩, velY, if_pos hwall]
        · rw [getD_set_casesR, if_pos ⟨rfl, by rw [hst.2.2]; exact hidx⟩, velS, if_pos hwall]
      · rename_i hwall
        refine ⟨?_, ?_, ?_⟩
        · rw [getD_set_casesR, if_pos ⟨rfl, by rw [hst.1]; exact hidx⟩, velX, if_neg hwall,
            obstacleFactor]
        · rw [getD_set_casesR, if_pos ⟨rfl, by rw [hst.2.1]; exact hidx⟩, velY, if_neg hwall,
            obstacleFactor]
        · rw [getD_set_casesR, if_pos ⟨rfl, by rw [hst.2.2]; exact hidx⟩, velS, if_neg hwall,
            velX, if_neg hwall, velY, if_neg hwall, obstacleFactor]
  · -- later steps either write elsewhere or rewrite the same values
    intro q _ st hst hP
    dsimp only
    by_cases hij : q.2 * w + q.1 = y * w + x
    · split
      · rename_i hwall
        rw [hij] at hwall
        refine ⟨?_, ?_, ?_⟩
        · rw [hij, getD_set_casesR]
          split
          · rw [velX, if_pos hwall]
          · exact hP.1
        · rw [hij, getD_set_casesR]
          split
          · rw [velY, if_pos hwall]
          · exact hP.2.1
        · rw [hij, getD_set_casesR]
          split
          · rw [velS, if_pos hwall]
          · exact hP.2.2
      · rename_i hwall
        rw [hij] at hwall
        refine ⟨?_, ?_, ?_⟩
        · rw [hij, getD_set_casesR]
          split
          · rw [velX, if_neg hwall, obstacleFactor]
          · exact hP.1
        · rw [hij, getD_set_casesR]
          split
          · rw [velY, if_neg hwall, obstacleFactor]
          · exact hP.2.1
        · rw [hij, getD_set_casesR]
          split
          · rw [velS, if_neg hwall, velX, if_neg hwall, velY, if_neg hwall, obstacleFactor]
          · exact hP.2.2
    · split
      · exact ⟨by rw [getD_set_neR hij]; exact hP.1, by rw [getD_set_neR hij]; exact hP.2.1,
          by rw [getD_set_neR hij]; exact hP.2.2⟩
      · exact ⟨by rw [getD_set_neR hij]; exact hP.1, by rw [getD_set_neR hij]; exact hP.2.1,
          by rw [getD_set_neR hij]; exact hP.2.2⟩

set_option maxRecDepth 40000 in
set_option maxHeartbeats 1000000 in
/-- C7: after `solve()`, for every interior cell: walls get zero velocity and
zero speed; every other cell gets the negative central-difference gradient of
the solved potential, attenuated by `obstacleFactor` (`1 - material` exactly
when `0 < material < 1`), and `speed = sqrt(vx^2 + vy^2)`. -/
theorem solve_velocity_formula (g : Grid)
    (hvx : g.vx.length = g.width * g.height) (hvy : g.vy.length = g.width * g.height)
    (hsp : g.speed.length = g.width * g.height) (x y : ℕ)
    (hx1 : 1 ≤ x) (hx2 : x ≤ g.width - 2) (hy1 : 1 ≤ y) (hy2 : y ≤ g.height - 2) :
    (1 ≤ g.cells.getD (y * g.width + x) 0 →
        (solve g).vx.getD (y * g.width + x) 0 = 0 ∧
        (solve g).vy.getD (y * g.width + x) 0 = 0 ∧
        (solve g).speed.getD (y * g.width + x) 0 = 0) ∧
      (g.cells.getD (y * g.width + x) 0 < 1 →
        (solve g).vx.getD (y * g.width + x) 0 =
          -((solve g).potential.getD (y * g.width + x + 1) 0 -
              (solve g).potential.getD (y * g.width + x - 1) 0) / 2 *
            obstacleFactor (g.cells.getD (y * g.width + x) 0) ∧
        (solve g).vy.getD (y * g.width + x) 0 =
          -((solve g).potential.getD (y * g.width + x + g.width) 0 -
              (solve g).potential.getD (y * g.width + x - g.width) 0) / 2 *
            obstacleFactor (g.cells.getD (y * g.width + x) 0) ∧
        (solve g).speed.getD (y * g.width + x) 0 =
          Real.sqrt (((solve g).vx.getD (y * g.width + x) 0)^2 +
            ((solve g).vy.getD (y * g.width + x) 0)^2)) := by
  have hw3 : 3 ≤ g.width := by omega
  have hh3 : 3 ≤ g.height := by omega
  have hidx : y * g.width + x < g.width * g.height := by
    have hxw : x < g.width := by omega
    have hyh : y + 1 ≤ g.height := by omega
    calc y * g.width + x < y * g.width + g.width := by omega
      _ = (y + 1) * g.width := by ring
      _ ≤ g.height * g.width := Nat.mul_le_mul_right g.width hyh
      _ = g.width * g.height := Nat.mul_comm g.height g.width
  have hmem : (x, y) ∈ interiorCells g.width g.height :=
    mem_interiorCells.mpr ⟨hx1, hx2, hy1, hy2⟩
  have hva := velocityPass_getD g.cells g.width g.height
    (sorIterate g.cells
      (if 0 < (doorCells g.sources g.width g.height).length then
        sinkPass g.cells g.width g.height
          (((doorCells g.sources g.width g.height).map (fun p => (p.1 : ℚ))).sum /
            ((doorCells g.sources g.width g.height).length : ℚ))
          (((doorCells g.sources g.width g.height).map (fun p => (p.2 : ℚ))).sum /
            ((doorCells g.sources g.width g.height).length : ℚ))
          (initPotential g.sources (g.width * g.height)) g.sources
      else (initPotential g.sources (g.width * g.height), g.sources)).2
      g.flowModifier g.width g.height 600
      (if 0 < (doorCells g.sources g.width g.height).length then
        sinkPass g.cells g.width g.height
          (((doorCells g.sources g.width g.height).map (fun p => (p.1 : ℚ))).sum /
            ((doorCells g.sources g.width g.height).length : ℚ))
          (((doorCells g.sources g.width g.height).map (fun p => (p.2 : ℚ))).sum /
            ((doorCells g.sources g.width g.height).length : ℚ))
          (initPotential g.sources (g.width * g.height)) g.sources
      else (initPotential g.sources (g.width * g.height), g.sources)).1)
    g.vx g.vy g.speed ⟨hvx, hvy, hsp⟩ hmem hidx
  obtain ⟨e1, e2, e3⟩ := hva
  have hpot : (solve g).potential = sorIterate g.cells
      (if 0 < (doorCells g.sources g.width g.height).length then
        sinkPass g.cells g.width g.height
          (((doorCells g.sources g.width g.height).map (fun p => (p.1 : ℚ))).sum /
            ((doorCells g.sources g.width g.height).length : ℚ))
          (((doorCells g.sources g.width g.height).map (fun p => (p.2 : ℚ))).sum /
            ((doorCells g.sources g.width g.height).length : ℚ))
          (initPotential g.sources (g.width * g.height)) g.sources
      else (initPotential g.sources (g.width * g.height), g.sources)).2
      g.flowModifier g.width g.height 600
      (if 0 < (doorCells g.sources g.width g.height).length then
        sinkPass g.cells g.width g.height
          (((doorCells g.sources g.width g.height).map (fun p => (p.1 : ℚ))).sum /
            ((doorCells g.sources g.width g.height).length : ℚ))
          (((doorCells g.sources g.width g.height).map (fun p => (p.2 : ℚ))).sum /
            ((doorCells g.sources g.width g.height).length : ℚ))
          (initPotential g.sources (g.width * g.height)) g.sources
      else (initPotential g.sources (g.width * g.height), g.sources)).1 := rfl
  have f1 : (solve g).vx.getD (y * g.width + x) 0 =
      velX g.cells (solve g).potential (y * g.width + x) := by
    rw [hpot]
    exact e1
  have f2 : (solve g).vy.getD (y * g.width + x) 0 =
      velY g.cells (solve g).potential g.width (y * g.width + x) := by
    rw [hpot]
    exact e2
  have f3 : (solve g).speed.getD (y * g.width + x) 0 =
      velS g.cells (solve g).potential g.width (y * g.width + x) := by
    rw [hpot]
    exact e3
  constructor
  · intro hwall
    refine ⟨?_, ?_, ?_⟩
    · rw [f1, velX, if_pos hwall]
    · rw [f2, velY, if_pos hwall]
    · rw [f3, velS, if_pos hwall]
  · intro hlt
    have hnw : ¬ 1 ≤ g.cells.getD (y * g.width + x) 0 := not_le.mpr hlt
    refine ⟨?_, ?_, ?_⟩
    · rw [f1, velX, if_neg hnw]
    · rw [f2, velY, if_neg hnw]
    · rw [f3, velS, if_neg hnw, ← f1, ← f2]

attribute [local semireducible] Rat.add Rat.sub Rat.mul Rat.inv Rat.ofScientific in
/-- Witness for C7 on the middle cell of an empty 3x3 grid. -/
theorem solve_velocity_formula_witness :
    (solve (Grid.make 3 3)).speed.getD 4 0 =
      Real.sqrt (((solve (Grid.make 3 3)).vx.getD 4 0)^2 +
        ((solve (Grid.make 3 3)).vy.getD 4 0)^2) := by
  have h := solve_velocity_formula (Grid.make 3 3) (by decide) (by decide) (by decide)
    1 1 (by decide) (by decide) (by decide) (by decide)
  exact (h.2 (by decide)).2.2

/-! ### C3: the no-source invariant

A grid with no sources at all can still develop a nonzero velocity field:
the flow-modifier perturbation adds potential inside every SOR update, so a
plant (`flowModifier = 0.5`) pumps the potential even though every source is
zero.  The concrete refutation uses a 4x3 room whose two interior cells carry
an obstacle of resistance 7/17: with ω = 17/10 the over-relaxed update then
has self-coefficient `1 + ω (c - 1) = 0`, so each sweep maps the interior
potential pair `(a, b)` to `(b/4 + 17/10, (b/4 + 17/10)/4)` in closed form,
and the pumped value never decays back to zero. -/

def cexOther : FurnitureItem := ⟨1, 1, 1, 0, FurnKind.other, some (7/17), false⟩

def cexPlant : FurnitureItem := ⟨1, 1, 0, 0, FurnKind.plant, none, false⟩

def cexState : EditorState := ⟨[], [], [], [cexOther, cexPlant], ⟨0, 0, 4, 3⟩⟩

noncomputable def cexGrid : Grid := rasterize cexState (Grid.make 4 3)

def cexCells : List ℚ := [1, 1, 1, 1, 1, 7/17, 7/17, 1, 1, 1, 1, 1]

def cexSrc : List ℚ := List.replicate 12 0

noncomputable def cexMods : List ℝ := (List.replicate 12 (0 : ℝ)).set 5 (1/2)

noncomputable def cexPhi (a b : ℝ) : List ℝ := [0, 0, 0, 0, 0, a, b, 0, 0, 0, 0, 0]

attribute [local semireducible] Rat.add Rat.sub Rat.mul Rat.inv Rat.ofScientific in
set_option maxRecDepth 40000 in
theorem cexGrid_cells : cexGrid.cells = cexCells := by decide

attribute [local semireducible] Rat.add Rat.sub Rat.mul Rat.inv Rat.ofScientific in
set_option maxRecDepth 40000 in
theorem cexGrid_sources : cexGrid.sources = cexSrc := by decide

attribute [local semireducible] Rat.add Rat.sub Rat.mul Rat.inv Rat.ofScientific in
set_option maxRecDepth 40000 in
theorem cexGrid_mods : cexGrid.flowModifier = cexMods := rfl

attribute [local semireducible] Rat.add Rat.sub Rat.mul Rat.inv Rat.ofScientific in
set_option maxRecDepth 40000 in
theorem cexGrid_width : cexGrid.width = 4 := by decide

attribute [local semireducible] Rat.add Rat.sub Rat.mul Rat.inv Rat.ofScientific in
set_option maxRecDepth 40000 in
theorem cexGrid_height : cexGrid.height = 3 := by decide

attribute [local semireducible] Rat.add Rat.sub Rat.mul Rat.inv Rat.ofScientific in
theorem cex_step1 (a b : ℝ) :
    sorStep cexCells cexSrc cexMods 4 (cexPhi a b) (1, 1) = cexPhi (b/4 + 17/10) b := by
  unfold sorStep
  dsimp only
  rw [show cexCells.getD (1 * 4 + 1) 0 = 7/17 from rfl,
    show cexSrc.getD (1 * 4 + 1) 0 = 0 from rfl,
    show cexMods.getD (1 * 4 + 1) 0 = 1/2 from rfl,
    show (cexPhi a b).getD (1 * 4 + 1 - 1) 0 = 0 from rfl,
    show (cexPhi a b).getD (1 * 4 + 1 + 1) 0 = b from rfl,
    show (cexPhi a b).getD (1 * 4 + 1 - 4) 0 = 0 from rfl,
    show (cexPhi a b).getD (1 * 4 + 1 + 4) 0 = 0 from rfl,
    show (cexPhi a b).getD (1 * 4 + 1) 0 = a from rfl,
    if_neg (show ¬ (1 : ℚ) ≤ 7/17 from by decide),
    if_neg (show ¬ ((0 : ℚ) ≠ 0) from by decide),
    if_pos (show (0 : ℚ) < 7/17 ∧ (7/17 : ℚ) < 1 from by decide),
    if_pos (show (1/2 : ℝ) > 0 from by norm_num)]
  have hset : ∀ v : ℝ, v = b/4 + 17/10 →
      (cexPhi a b).set (1 * 4 + 1) v = cexPhi (b/4 + 17/10) b := by
    rintro v rfl
    rfl
  apply hset
  push_cast
  ring

attribute [local semireducible] Rat.add Rat.sub Rat.mul Rat.inv Rat.ofScientific in
theorem cex_step2 (a b : ℝ) :
    sorStep cexCells cexSrc cexMods 4 (cexPhi a b) (2, 1) = cexPhi a (a/4) := by
  unfold sorStep
  dsimp only
  rw [show cexCells.getD (1 * 4 + 2) 0 = 7/17 from rfl,
    show cexSrc.getD (1 * 4 + 2) 0 = 0 from rfl,
    show cexMods.getD (1 * 4 + 2) 0 = 0 from rfl,
    show (cexPhi a b).getD (1 * 4 + 2 - 1) 0 = a from rfl,
    show (cexPhi a b).getD (1 * 4 + 2 + 1) 0 = 0 from rfl,
    show (cexPhi a b).getD (1 * 4 + 2 - 4) 0 = 0 from rfl,
    show (cexPhi a b).getD (1 * 4 + 2 + 4) 0 = 0 from rfl,
    show (cexPhi a b).getD (1 * 4 + 2) 0 = b from rfl,
    if_neg (show ¬ (1 : ℚ) ≤ 7/17 from by decide),
    if_neg (show ¬ ((0 : ℚ) ≠ 0) from by decide),
    if_pos (show (0 : ℚ) < 7/17 ∧ (7/17 : ℚ) < 1 from by decide),
    if_neg (show ¬ ((0 : ℝ) > 0) from by norm_num),
    if_neg (show ¬ ((0 : ℝ) < 0) from by norm_num)]
  have hset : ∀ v : ℝ, v = a/4 →
      (cexPhi a b).set (1 * 4 + 2) v = cexPhi a (a/4) := by
    rintro v rfl
    rfl
  apply hset
  push_cast
  ring

/-- One SOR sweep over the counterexample grid in closed form: the interior
potential pair `(a, b)` becomes `(b/4 + 17/10, (b/4 + 17/10)/4)`. -/
theorem cex_sweep (a b : ℝ) :
    sorSweep cexCells cexSrc cexMods 4 3 (cexPhi a b) =
      cexPhi (b/4 + 17/10) ((b/4 + 17/10)/4) := by
  unfold sorSweep
  rw [show interiorCells 4 3 = [(1, 1), (2, 1)] from by decide,
    List.foldl_cons, List.foldl_cons, List.foldl_nil, cex_step1, cex_step2]

/-- Iterating sweeps from an interior pair with `b ≥ 17/40` keeps
`b ≥ 17/40` forever: the pumped potential never decays back to zero. -/
theorem cex_iterate : ∀ (n : ℕ) (a b : ℝ), 17/40 ≤ b →
    ∃ a2 b2 : ℝ, sorIterate cexCells cexSrc cexMods 4 3 n (cexPhi a b) = cexPhi a2 b2 ∧
      17/40 ≤ b2
  | 0, a, b, hb => ⟨a, b, rfl, hb⟩
  | n + 1, a, b, hb => by
      have hs : sorIterate cexCells cexSrc cexMods 4 3 (n + 1) (cexPhi a b) =
          sorIterate cexCells cexSrc cexMods 4 3 n
            (cexPhi (b/4 + 17/10) ((b/4 + 17/10)/4)) := by
        show sorIterate cexCells cexSrc cexMods 4 3 n
          (sorSweep cexCells cexSrc cexMods 4 3 (cexPhi a b)) = _
        rw [cex_sweep]
      rw [hs]
      exact cex_iterate n (b/4 + 17/10) ((b/4 + 17/10)/4) (by linarith)

attribute [local semireducible] Rat.add Rat.sub Rat.mul Rat.inv Rat.ofScientific in
set_option maxRecDepth 40000 in
theorem cexGrid_vx : cexGrid.vx = List.replicate 12 (0 : ℝ) := rfl

attribute [local semireducible] Rat.add Rat.sub Rat.mul Rat.inv Rat.ofScientific in
set_option maxRecDepth 40000 in
theorem cexGrid_vy : cexGrid.vy = List.replicate 12 (0 : ℝ) := rfl

attribute [local semireducible] Rat.add Rat.sub Rat.mul Rat.inv Rat.ofScientific in
set_option maxRecDepth 40000 in
theorem cexGrid_speed : cexGrid.speed = List.replicate 12 (0 : ℝ) := rfl

theorem foldl_max_step_ge (m s : ℝ) : m ≤ if s > m then s else m := by
  split
  · exact le_of_lt (by assumption)
  · exact le_refl m

theorem foldl_max_ge_acc : ∀ (l : List ℝ) (m0 : ℝ),
    m0 ≤ l.foldl (fun m s => if s > m then s else m) m0
  | [], m0 => le_refl m0
  | s :: t, m0 => le_trans (foldl_max_step_ge m0 s) (foldl_max_ge_acc t _)

theorem foldl_max_ge_mem : ∀ (l : List ℝ) (m0 x : ℝ), x ∈ l →
    x ≤ l.foldl (fun m s => if s > m then s else m) m0
  | s :: t, m0, x, hx => by
      rcases List.mem_cons.mp hx with h | h
      · subst h
        show x ≤ t.foldl _ (if x > m0 then x else m0)
        refine le_trans ?_ (foldl_max_ge_acc t _)
        split
        · exact le_refl x
        · exact le_of_not_lt (by assumption)
      · exact foldl_max_ge_mem t _ x h

attribute [local semireducible] Rat.add Rat.sub Rat.mul Rat.inv Rat.ofScientific in
set_option maxRecDepth 40000 in
/-- Counterexample to C3: the rasterized 4x3 grid `cexGrid` has an all-zero
source array, yet after `solve()` the speed at the interior cell (1, 1) is
nonzero and `getMaxSpeed()` is nonzero — the plant's flow modifier pumps the
potential inside every SOR update even with no source anywhere. -/
theorem no_source_nonzero_speed_cex :
    (∀ q ∈ cexGrid.sources, q = 0) ∧
      (solve cexGrid).speed.getD (1 * 4 + 1) 0 ≠ 0 ∧
        (solve cexGrid).getMaxSpeed ≠ 0 := by
  have hdc : doorCells cexGrid.sources cexGrid.width cexGrid.height = [] := by
    rw [cexGrid_sources, cexGrid_width, cexGrid_height]
    decide
  have hsp : (solve cexGrid).speed =
      (velocityPass cexGrid.cells cexGrid.width cexGrid.height
        (sorIterate cexGrid.cells cexGrid.sources cexGrid.flowModifier
          cexGrid.width cexGrid.height 600
          (initPotential cexGrid.sources (cexGrid.width * cexGrid.height)))
        cexGrid.vx cexGrid.vy cexGrid.speed).2.2 := by
    unfold solve
    dsimp only
    rw [hdc, if_neg (show ¬ 0 < List.length ([] : List (ℕ × ℕ)) from by simp)]
  rw [cexGrid_cells, cexGrid_sources, cexGrid_mods, cexGrid_width, cexGrid_height] at hsp
  have hinit : initPotential cexSrc (4 * 3) = cexPhi 0 0 := rfl
  have h600 : sorIterate cexCells cexSrc cexMods 4 3 600 (cexPhi 0 0) =
      sorIterate cexCells cexSrc cexMods 4 3 599
        (cexPhi (0/4 + 17/10) ((0/4 + 17/10)/4)) := by
    show sorIterate cexCells cexSrc cexMods 4 3 599
      (sorSweep cexCells cexSrc cexMods 4 3 (cexPhi 0 0)) = _
    rw [cex_sweep]
  obtain ⟨A, B, hAB, hB⟩ :=
    cex_iterate 599 (0/4 + 17/10) ((0/4 + 17/10)/4) (by norm_num)
  rw [hinit, h600, hAB] at hsp
  have hva := velocityPass_getD cexCells 4 3 (cexPhi A B)
    cexGrid.vx cexGrid.vy cexGrid.speed
    ⟨by rw [cexGrid_vx]; simp, by rw [cexGrid_vy]; simp, by rw [cexGrid_speed]; simp⟩
    (show ((1 : ℕ), (1 : ℕ)) ∈ interiorCells 4 3 from by decide)
    (show 1 * 4 + 1 < 4 * 3 from by norm_num)
  have hs5 : (solve cexGrid).speed.getD (1 * 4 + 1) 0 =
      velS cexCells (cexPhi A B) 4 (1 * 4 + 1) := by
    rw [hsp]
    exact hva.2.2
  have hxlt : velX cexCells (cexPhi A B) (1 * 4 + 1) < 0 := by
    rw [velX, show cexCells.getD (1 * 4 + 1) 0 = 7/17 from rfl,
      if_neg (show ¬ (1 : ℚ) ≤ 7/17 from by decide),
      show (cexPhi A B).getD (1 * 4 + 1 + 1) 0 = B from rfl,
      show (cexPhi A B).getD (1 * 4 + 1 - 1) 0 = 0 from rfl,
      obstacleFactor, if_pos (show (0 : ℚ) < 7/17 ∧ (7/17 : ℚ) < 1 from by decide)]
    push_cast
    linarith
  have hvy0 : velY cexCells (cexPhi A B) 4 (1 * 4 + 1) = 0 := by
    rw [velY, show cexCells.getD (1 * 4 + 1) 0 = 7/17 from rfl,
      if_neg (show ¬ (1 : ℚ) ≤ 7/17 from by decide),
      show (cexPhi A B).getD (1 * 4 + 1 + 4) 0 = 0 from rfl,
      show (cexPhi A B).getD (1 * 4 + 1 - 4) 0 = 0 from rfl]
    ring
  have hspos : 0 < velS cexCells (cexPhi A B) 4 (1 * 4 + 1) := by
    rw [velS, show cexCells.getD (1 * 4 + 1) 0 = 7/17 from rfl,
      if_neg (show ¬ (1 : ℚ) ≤ 7/17 from by decide)]
    apply Real.sqrt_pos.mpr
    rw [hvy0]
    nlinarith [hxlt]
  have h5 : 0 < (solve cexGrid).speed.getD (1 * 4 + 1) 0 := by
    rw [hs5]
    exact hspos
  refine ⟨by rw [cexGrid_sources]; decide, by rw [hs5]; exact (ne_of_lt hspos).symm, ?_⟩
  have hlen : 1 * 4 + 1 < (solve cexGrid).speed.length := by
    by_contra hc
    rw [List.getD_eq_default _ _ (le_of_not_lt hc)] at h5
    exact lt_irrefl 0 h5
  have hmem : (solve cexGrid).speed.getD (1 * 4 + 1) 0 ∈ (solve cexGrid).speed := by
    rw [List.getD_eq_getElem _ _ hlen]
    exact List.getElem_mem _
  have hge := foldl_max_ge_mem (solve cexGrid).speed 0 _ hmem
  unfold Grid.getMaxSpeed
  exact (ne_of_lt (lt_of_lt_of_le h5 hge)).symm

theorem getD_zero_of_all_zeroQ {l : List ℚ} (h : ∀ x ∈ l, x = 0) (j : ℕ) :
    l.getD j 0 = 0 := by
  rcases lt_or_le j l.length with hj | hj
  · rw [List.getD_eq_getElem _ _ hj]
    exact h _ (List.getElem_mem hj)
  · exact List.getD_eq_default _ _ hj

theorem set_value_zero {l : List ℝ} (h : ∀ x ∈ l, x = 0) (i : ℕ) {v : ℝ}
    (hv : v = 0) : ∀ x ∈ l.set i v, x = 0 := by
  rw [hv]
  exact all_zero_set_zero h i

/-- With an all-zero flow-modifier array, a SOR update on an all-zero
potential writes zero again. -/
theorem sorStep_zero (cells sources : List ℚ) (mods : List ℝ) (w : ℕ)
    (hm : ∀ x ∈ mods, x = 0) (ph : List ℝ) (p : ℕ × ℕ)
    (hph : ∀ x ∈ ph, x = 0) :
    ∀ x ∈ sorStep cells sources mods w ph p, x = 0 := by
  unfold sorStep
  dsimp only
  split
  · exact hph
  · split
    · exact hph
    · refine set_value_zero hph _ ?_
      simp only [getD_zero_of_all_zero hm, getD_zero_of_all_zero hph]
      norm_num

theorem sorSweep_zero (cells sources : List ℚ) (mods : List ℝ) (w h : ℕ)
    (hm : ∀ x ∈ mods, x = 0) (phi : List ℝ) (hphi : ∀ x ∈ phi, x = 0) :
    ∀ x ∈ sorSweep cells sources mods w h phi, x = 0 := by
  unfold sorSweep
  apply foldl_preserves (fun ph : List ℝ => ∀ x ∈ ph, x = 0)
  · exact hphi
  · intro p _ ph hph
    exact sorStep_zero cells sources mods w hm ph p hph

theorem sorIterate_zero (cells sources : List ℚ) (mods : List ℝ) (w h : ℕ)
    (hm : ∀ x ∈ mods, x = 0) :
    ∀ (n : ℕ) (phi : List ℝ), (∀ x ∈ phi, x = 0) →
      ∀ x ∈ sorIterate cells sources mods w h n phi, x = 0
  | 0, _, hphi => hphi
  | n + 1, phi, hphi =>
      sorIterate_zero cells sources mods w h hm n
        (sorSweep cells sources mods w h phi)
        (sorSweep_zero cells sources mods w h hm phi hphi)

theorem initPotential_zero (sources : List ℚ) (n : ℕ)
    (hs : ∀ q ∈ sources, q = 0) :
    ∀ x ∈ initPotential sources n, x = 0 := by
  intro x hx
  unfold initPotential at hx
  obtain ⟨i, _, rfl⟩ := List.mem_map.mp hx
  rw [getD_zero_of_all_zeroQ hs]
  norm_num

/-- With an all-zero potential, the velocity pass writes zero speed at every
visited cell, so an all-zero speed array stays all-zero. -/
theorem velocityPass_speed_zero (cells : List ℚ) (w h : ℕ) (phi : List ℝ)
    (hphi : ∀ x ∈ phi, x = 0) (vx0 vy0 sp0 : List ℝ)
    (hsp : ∀ x ∈ sp0, x = 0) :
    ∀ x ∈ (velocityPass cells w h phi vx0 vy0 sp0).2.2, x = 0 := by
  unfold velocityPass
  refine foldl_preserves
    (fun st : List ℝ × List ℝ × List ℝ => ∀ x ∈ st.2.2, x = 0) _ _ _ hsp ?_
  · intro p _ st hst
    dsimp only
    split
    · exact all_zero_set_zero hst _
    · refine set_value_zero hst _ ?_
      simp only [getD_zero_of_all_zero hphi]
      norm_num

/-- Amended C3: for a grid whose `source` array **and** `flowModifier` array
are all zero (and whose speed array starts zeroed, as `rasterize` leaves it),
`solve()` yields zero speed at every cell and `getMaxSpeed() = 0`.  With a
nonzero flow modifier present the property fails, see the counterexample. -/
theorem no_source_no_modifier_speed_zero (g : Grid)
    (hs : ∀ q ∈ g.sources, q = 0) (hm : ∀ x ∈ g.flowModifier, x = 0)
    (hsp0 : ∀ x ∈ g.speed, x = 0) :
    (∀ x ∈ (solve g).speed, x = 0) ∧ (solve g).getMaxSpeed = 0 := by
  have hdc : doorCells g.sources g.width g.height = [] := by
    rw [doorCells, List.filter_eq_nil_iff]
    intro p hp
    simp only [decide_eq_true_eq, not_lt]
    rw [getD_zero_of_all_zeroQ hs]
    norm_num
  have hspeed : ∀ x ∈ (solve g).speed, x = 0 := by
    show ∀ x ∈ (velocityPass g.cells g.width g.height
      (sorIterate g.cells
        (if 0 < (doorCells g.sources g.width g.height).length then
          sinkPass g.cells g.width g.height _ _
            (initPotential g.sources (g.width * g.height)) g.sources
        else (initPotential g.sources (g.width * g.height), g.sources)).2
        g.flowModifier g.width g.height 600
        (if 0 < (doorCells g.sources g.width g.height).length then
          sinkPass g.cells g.width g.height _ _
            (initPotential g.sources (g.width * g.height)) g.sources
        else (initPotential g.sources (g.width * g.height), g.sources)).1)
      g.vx g.vy g.speed).2.2, x = 0
    rw [hdc, if_neg (show ¬ 0 < List.length ([] : List (ℕ × ℕ)) from by simp)]
    exact velocityPass_speed_zero g.cells g.width g.height _
      (sorIterate_zero _ _ _ _ _ hm 600 _
        (initPotential_zero g.sources (g.width * g.height) hs))
      g.vx g.vy g.speed hsp0
  refine ⟨hspeed, ?_⟩
  unfold Grid.getMaxSpeed
  have hfold : ∀ (l : List ℝ), (∀ x ∈ l, x = 0) →
      l.foldl (fun m s => if s > m then s else m) 0 = 0 := by
    intro l
    induction l with
    | nil => intro _; rfl
    | cons s t ih =>
        intro h
        show t.foldl _ (if s > 0 then s else 0) = 0
        rw [h s (List.mem_cons_self s t), if_neg (lt_irrefl 0)]
        exact ih (fun x hx => h x (List.mem_cons_of_mem _ hx))
  exact hfold _ hspeed

/-- Witness for the amended C3 on an empty 3x3 grid. -/
theorem no_source_no_modifier_speed_zero_witness :
    (∀ q ∈ (Grid.make 3 3).sources, q = 0) ∧
      ((∀ x ∈ (solve (Grid.make 3 3)).speed, x = 0) ∧
        (solve (Grid.make 3 3)).getMaxSpeed = 0) :=
  ⟨by decide,
    no_source_no_modifier_speed_zero (Grid.make 3 3) (by decide)
      (fun x hx => List.eq_of_mem_replicate hx)
      (fun x hx => List.eq_of_mem_replicate hx)⟩

/-! ### C9: particle population stability -/

theorem spawnParticle_some {ps : ParticleSystem} (hne : ps.sourcePositions ≠ [])
    (r : Rng) : ∃ pr, spawnParticle ps r = some pr := by
  unfold spawnParticle
  rw [if_neg (fun h => hne (List.isEmpty_iff.mp h))]
  exact ⟨_, rfl⟩

theorem respawnSlot_some {ps : ParticleSystem} (hne : ps.sourcePositions ≠ [])
    (r : Rng) : ∃ p1 r2, respawnSlot ps r = (some p1, r2) := by
  unfold respawnSlot
  obtain ⟨pr, he⟩ := spawnParticle_some hne r
  rw [he]
  exact ⟨pr.1, pr.2, rfl⟩

theorem updateParticle_some {ps : ParticleSystem} (hne : ps.sourcePositions ≠ [])
    (ms dt : ℝ) (p0 : Particle) (r : Rng) :
    ∃ p1 r2, updateParticle ps ms dt p0 r = (some p1, r2) := by
  unfold updateParticle
  dsimp only
  split
  · exact respawnSlot_some hne _
  · split
    · split
      · exact respawnSlot_some hne _
      · exact ⟨_, _, rfl⟩
    · split
      · exact respawnSlot_some hne _
      · exact ⟨_, _, rfl⟩

/-- With a nonempty spawn set, the per-particle pass never splices a slot
out: every particle is either kept or replaced, so the count is preserved. -/
theorem updateLoop_length {ps : ParticleSystem} (hne : ps.sourcePositions ≠ [])
    (ms dt : ℝ) : ∀ (l : List Particle) (r : Rng),
      (updateLoop ps ms dt l r).1.length = l.length
  | [], _ => rfl
  | p :: rest, r => by
      obtain ⟨p1, r2, he⟩ :=
        updateParticle_some hne ms dt p (updateLoop ps ms dt rest r).2
      unfold updateLoop
      dsimp only
      rw [he]
      dsimp only
      rw [List.length_cons, updateLoop_length hne ms dt rest r, List.length_cons]

/-- With a nonempty spawn set, the spawn loop pushes exactly `fuel`
particles. -/
theorem spawnLoop_length {ps : ParticleSystem} (hne : ps.sourcePositions ≠ []) :
    ∀ (fuel : ℕ) (l : List Particle) (r : Rng),
      (spawnLoop ps fuel l r).1.length = l.length + fuel
  | 0, _, _ => rfl
  | n + 1, l, r => by
      obtain ⟨pr, he⟩ := spawnParticle_some hne r
      unfold spawnLoop
      rw [he]
      dsimp only
      rw [spawnLoop_length hne n (l ++ [pr.1]) pr.2, List.length_append]
      simp only [List.length_cons, List.length_nil]
      omega

/-- One `update(dt)` with a nonempty spawn set and a count at most the cap
fills the population exactly to the cap; the spawn set and the cap are
untouched. -/
theorem update_count (ps : ParticleSystem) (r : Rng) (dt : ℝ)
    (hne : ps.sourcePositions ≠ []) (hcap : ps.particles.length ≤ ps.maxParticles) :
    (ps.update dt r).1.particles.length = ps.maxParticles ∧
      (ps.update dt r).1.sourcePositions = ps.sourcePositions ∧
      (ps.update dt r).1.maxParticles = ps.maxParticles := by
  refine ⟨?_, rfl, rfl⟩
  unfold ParticleSystem.update
  dsimp only
  rw [updateLoop_length hne _ dt _ _, spawnLoop_length hne _ _ _]
  omega

theorem updateIter_cap (dt : ℝ) : ∀ (n : ℕ) (ps : ParticleSystem) (r : Rng),
    ps.sourcePositions ≠ [] → ps.particles.length ≤ ps.maxParticles → 1 ≤ n →
    (updateIter dt n (ps, r)).1.particles.length = ps.maxParticles
  | 1, ps, r, hne, hcap, _ => (update_count ps r dt hne hcap).1
  | n + 2, ps, r, hne, hcap, _ => by
      have h1 := update_count ps r dt hne hcap
      show (updateIter dt (n + 1) (ps.update dt r)).1.particles.length = ps.maxParticles
      rw [updateIter_cap dt (n + 1) (ps.update dt r).1 (ps.update dt r).2
        (by rw [h1.2.1]; exact hne) (by rw [h1.1, h1.2.2]) (by omega)]
      exact h1.2.2

theorem spawnParticle_none {ps : ParticleSystem} (hsrc : ps.sourcePositions = [])
    (r : Rng) : spawnParticle ps r = none := by
  simp [spawnParticle, hsrc]

theorem spawnLoop_empty {ps : ParticleSystem} (hsrc : ps.sourcePositions = []) :
    ∀ (fuel : ℕ) (l : List Particle) (r : Rng), spawnLoop ps fuel l r = (l, r)
  | 0, _, _ => rfl
  | _ + 1, l, r => by
      unfold spawnLoop
      rw [spawnParticle_none hsrc]

/-- One `update(dt)` with an empty spawn set and no live particle leaves the
population empty and the spawn set empty. -/
theorem update_empty (ps : ParticleSystem) (r : Rng) (dt : ℝ)
    (hsrc : ps.sourcePositions = []) (hp : ps.particles = []) :
    (ps.update dt r).1.particles = [] ∧ (ps.update dt r).1.sourcePositions = [] := by
  refine ⟨?_, hsrc⟩
  unfold ParticleSystem.update
  dsimp only
  rw [hp, spawnLoop_empty hsrc _ [] r]
  rfl

theorem updateIter_empty (dt : ℝ) : ∀ (n : ℕ) (ps : ParticleSystem) (r : Rng),
    ps.sourcePositions = [] → ps.particles = [] →
    (updateIter dt n (ps, r)).1.particles = []
  | 0, _, _, _, hp => hp
  | n + 1, ps, r, hsrc, hp => by
      have h1 := update_empty ps r dt hsrc hp
      show (updateIter dt n (ps.update dt r)).1.particles = []
      exact updateIter_empty dt n (ps.update dt r).1 (ps.update dt r).2 h1.2 h1.1

/-- C9: with at least one spawn position and a live count at most the cap,
the population hits exactly `maxParticles` from the first tick on and stays
there; with no spawn position and no live particle, the population stays
empty forever. -/
theorem particle_population (ps : ParticleSystem) (r : Rng) (dt : ℝ) :
    (ps.sourcePositions ≠ [] → ps.particles.length ≤ ps.maxParticles →
      ∀ n : ℕ, 1 ≤ n →
        (updateIter dt n (ps, r)).1.particles.length = ps.maxParticles) ∧
      (ps.sourcePositions = [] → ps.particles = [] →
        ∀ n : ℕ, (updateIter dt n (ps, r)).1.particles = []) :=
  ⟨fun hne hcap n hn => updateIter_cap dt n ps r hne hcap hn,
    fun hsrc hp n => updateIter_empty dt n ps r hsrc hp⟩

noncomputable def rngW : Rng := ⟨fun _ => 0, 0⟩

def psW9a : ParticleSystem := ⟨Grid.make 3 3, 2, [], 5, [⟨1, 1, 1⟩]⟩

def psW9b : ParticleSystem := ⟨Grid.make 3 3, 2, [], 5, []⟩

/-- Witness for C9 on two concrete systems: one with a spawn position (cap
reached after one tick), one with none (still empty after two ticks). -/
theorem particle_population_witness :
    (psW9a.sourcePositions ≠ [] ∧ psW9a.particles.length ≤ psW9a.maxParticles ∧
      (updateIter 1 1 (psW9a, rngW)).1.particles.length = psW9a.maxParticles) ∧
      (psW9b.sourcePositions = [] ∧ psW9b.particles = [] ∧
        (updateIter 1 2 (psW9b, rngW)).1.particles = []) :=
  ⟨⟨by decide, by decide,
      (particle_population psW9a rngW 1).1 (by decide) (by decide) 1 (by decide)⟩,
    ⟨rfl, rfl, (particle_population psW9b rngW 1).2 rfl rfl 2⟩⟩

/-! ### C10: the spawn threshold and window sources -/

/-- Characterization of the `findSources` scan: exactly the in-bounds cells
with `source > 0.5`, carrying that strength. -/
theorem mem_sourceScan (g : Grid) (p : SrcPos) :
    p ∈ sourceScan g ↔
      (p.x < g.width ∧ p.y < g.height ∧
        g.sources.getD (p.y * g.width + p.x) 0 > 1/2 ∧
        p.strength = g.sources.getD (p.y * g.width + p.x) 0) := by
  constructor
  · intro hm
    simp only [sourceScan, List.mem_flatMap, List.mem_filterMap, List.mem_range] at hm
    obtain ⟨y, hy, x, hx, he⟩ := hm
    split at he
    · rename_i hcond
      cases he
      exact ⟨hx, hy, hcond, rfl⟩
    · cases he
  · rintro ⟨h1, h2, h3, h4⟩
    simp only [sourceScan, List.mem_flatMap, List.mem_filterMap, List.mem_range]
    refine ⟨p.y, h2, p.x, h1, ?_⟩
    rw [if_pos h3, ← h4]

/-- The all-sources-below-threshold invariant maintained by a door-free
rasterization. -/
def SrcLe (g : Grid) : Prop := ∀ q ∈ g.sources, q ≤ 1/2

theorem sources_setWall (g : Grid) (x y : ℤ) : (g.setWall x y).sources = g.sources := by
  unfold Grid.setWall
  split <;> rfl

theorem sources_setObstacle (g : Grid) (x y : ℤ) (r : ℚ) :
    (g.setObstacle x y r).sources = g.sources := by
  unfold Grid.setObstacle
  split <;> rfl

theorem sources_setFlowModifier (g : Grid) (x y : ℤ) (m : ℝ) :
    (g.setFlowModifier x y m).sources = g.sources := by
  unfold Grid.setFlowModifier
  split <;> rfl

theorem srcLe_setSource {g : Grid} (hg : SrcLe g) (x y : ℤ) {s : ℚ} (hs : s ≤ 1/2) :
    SrcLe (g.setSource x y s) := by
  unfold Grid.setSource
  split
  · intro q hq
    rcases List.mem_or_eq_of_mem_set hq with h | h
    · exact hg q h
    · exact h ▸ hs
  · exact hg

theorem srcLe_foldl {α : Type _} (f : Grid → α → Grid) (l : List α) (b : Grid)
    (hb : SrcLe b) (hf : ∀ g a, SrcLe g → SrcLe (f g a)) : SrcLe (l.foldl f b) := by
  induction l generalizing b with
  | nil => exact hb
  | cons a t ih => exact ih (f b a) (hf b a hb)

theorem srcLe_wallVisit {g : Grid} (hg : SrcLe g) (p : ℤ × ℤ) : SrcLe (wallVisit g p) := by
  unfold wallVisit SrcLe
  rw [sources_setWall, sources_setWall, sources_setWall, sources_setWall, sources_setWall]
  exact hg

theorem srcLe_setSource2 {g g2 : Grid} (hgs : g2.sources = g.sources) (hg : SrcLe g)
    (x y : ℤ) {s : ℚ} (hs : s ≤ 1/2) : SrcLe (g2.setSource x y s) := by
  unfold Grid.setSource
  split
  · intro q hq
    rcases List.mem_or_eq_of_mem_set hq with h | h
    · rw [hgs] at h
      exact hg q h
    · exact h ▸ hs
  · intro q hq
    rw [hgs] at hq
    exact hg q hq

theorem srcLe_carveVisit {s ns : ℚ} (hs : s ≤ 1/2) (hns : ns ≤ 1/2) {g : Grid}
    (hg : SrcLe g) (p : ℤ × ℤ) : SrcLe (carveVisit s ns g p) := by
  unfold carveVisit
  dsimp only
  apply srcLe_foldl
  · split
    · refine srcLe_setSource2 ?_ hg _ _ hs
      rfl
    · exact hg
  · intro gg d hgg
    dsimp only
    split
    · refine srcLe_setSource2 ?_ hgg _ _ hns
      rfl
    · exact hgg

theorem srcLe_rasterizeFurniture (rb : Rect) (sX sY : ℚ) (w h : ℕ) {g : Grid}
    (hg : SrcLe g) (item : FurnitureItem) :
    SrcLe (rasterizeFurniture rb sX sY w h g item) := by
  unfold rasterizeFurniture
  dsimp only []
  have hbox :
      SrcLe ((intRange (max 1 (toGrid rb sX sY item.x item.y).2)
          (min ((h : ℤ) - 2) (toGrid rb sX sY (item.x + item.width) (item.y + item.height)).2)).foldl
        (fun gy_acc gy =>
          (intRange (max 1 (toGrid rb sX sY item.x item.y).1)
              (min ((w : ℤ) - 2) (toGrid rb sX sY (item.x + item.width) (item.y + item.height)).1)).foldl
            (fun gx_acc gx =>
              match item.ftype with
              | FurnKind.mirror => gx_acc.setSource gx gy (3/10)
              | FurnKind.plant => gx_acc.setFlowModifier gx gy (1/2)
              | FurnKind.rug => (gx_acc.setObstacle gx gy (3/20)).setFlowModifier gx gy (1/5)
              | FurnKind.other => gx_acc.setObstacle gx gy (resistOrDefault item.flowResistance))
            gy_acc)
        g) := by
    apply srcLe_foldl _ _ _ hg
    intro gy_acc gy hacc
    apply srcLe_foldl _ _ _ hacc
    intro gx_acc gx hacc2
    rcases item.ftype with _ | _ | _ | _ <;> simp only []
    · exact srcLe_setSource hacc2 _ _ (by norm_num)
    · intro q hq
      rw [sources_setFlowModifier] at hq
      exact hacc2 q hq
    · intro q hq
      rw [sources_setFlowModifier, sources_setObstacle] at hq
      exact hacc2 q hq
    · intro q hq
      rw [sources_setObstacle] at hq
      exact hacc2 q hq
  split
  · apply srcLe_foldl _ _ _ hbox
    intro cg c hcg
    apply srcLe_foldl _ _ _ hcg
    intro cg1 dy hcg1
    apply srcLe_foldl _ _ _ hcg1
    intro cg2 dx hcg2
    split
    · intro q hq
      rw [sources_setFlowModifier] at hq
      exact hcg2 q hq
    · exact hcg2
  · exact hbox

/-- A door-free rasterization writes only window (0.4 / 0.2) and mirror (0.3)
source strengths: every entry of the source array stays at most 0.5. -/
theorem srcLe_rasterizeSized (st : EditorState) (w h : ℕ) (hdoors : st.doors = []) :
    SrcLe (rasterizeSized st w h) := by
  unfold rasterizeSized
  dsimp only
  rw [hdoors, List.foldl_nil]
  apply srcLe_foldl
  · apply srcLe_foldl
    · apply srcLe_foldl
      · apply srcLe_foldl
        · apply srcLe_foldl
          · intro q hq
            rw [List.eq_of_mem_replicate hq]
            norm_num
          · intro gg x hgg
            unfold SrcLe
            rw [sources_setWall, sources_setWall]
            exact hgg
        · intro gg y hgg
          unfold SrcLe
          rw [sources_setWall, sources_setWall]
          exact hgg
      · intro gg sg hgg
        apply srcLe_foldl _ _ _ hgg
        intro g2 p hg2
        exact srcLe_wallVisit hg2 p
    · intro gg sg hgg
      apply srcLe_foldl _ _ _ hgg
      intro g2 p hg2
      exact srcLe_carveVisit (by norm_num) (by norm_num) hg2 p
  · intro gg item hgg
    exact srcLe_rasterizeFurniture st.roomBounds _ _ w h hgg item

/-- If every source entry is at most 0.5, the spawn scan is empty. -/
theorem sourceScan_nil {g : Grid} (hg : SrcLe g) : sourceScan g = [] := by
  rcases hs : sourceScan g with _ | ⟨p, t⟩
  · rfl
  · exfalso
    have hp : p ∈ sourceScan g := hs ▸ List.mem_cons_self p t
    have := ((mem_sourceScan g p).mp hp).2.2.1
    have hle : g.sources.getD (p.y * g.width + p.x) 0 ≤ 1/2 := by
      rcases lt_or_le (p.y * g.width + p.x) g.sources.length with hj | hj
      · rw [List.getD_eq_getElem _ _ hj]
        exact hg _ (List.getElem_mem hj)
      · rw [List.getD_eq_default _ _ hj]
        norm_num
    exact absurd this (not_lt.mpr hle)

/-- `reset(); findSources(); update(dt)` on a grid whose scan is empty leaves
the particle list empty. -/
theorem reset_update_empty (ps : ParticleSystem) (dt : ℝ) (r : Rng)
    (hscan : sourceScan ps.grid = []) :
    ((ps.reset.findSources).update dt r).1.particles = [] :=
  (update_empty (ps.reset.findSources) r dt hscan rfl).1

/-- A 4x3 room with a single window segment at (1, 1) and no door. -/
def wSeg : Seg := ⟨1, 1, 1, 1⟩

def wState : EditorState := ⟨[], [], [wSeg], [], ⟨0, 0, 4, 3⟩⟩

noncomputable def wGrid : Grid := rasterize wState (Grid.make 4 3)

def wCells : List ℚ := [1, 0, 1, 1, 0, 0, 0, 1, 1, 0, 1, 1]

def wSrc : List ℚ := [0, 1/5, 0, 0, 1/5, 2/5, 1/5, 0, 0, 1/5, 0, 0]

attribute [local semireducible] Rat.add Rat.sub Rat.mul Rat.inv Rat.ofScientific in
set_option maxRecDepth 40000 in
theorem wGrid_cells : wGrid.cells = wCells := by decide

attribute [local semireducible] Rat.add Rat.sub Rat.mul Rat.inv Rat.ofScientific in
set_option maxRecDepth 40000 in
theorem wGrid_sources : wGrid.sources = wSrc := by decide

attribute [local semireducible] Rat.add Rat.sub Rat.mul Rat.inv Rat.ofScientific in
set_option maxRecDepth 40000 in
theorem wGrid_mods : wGrid.flowModifier = List.replicate 12 (0 : ℝ) := rfl

attribute [local semireducible] Rat.add Rat.sub Rat.mul Rat.inv Rat.ofScientific in
set_option maxRecDepth 40000 in
theorem wGrid_width : wGrid.width = 4 := by decide

attribute [local semireducible] Rat.add Rat.sub Rat.mul Rat.inv Rat.ofScientific in
set_option maxRecDepth 40000 in
theorem wGrid_height : wGrid.height = 3 := by decide

attribute [local semireducible] Rat.add Rat.sub Rat.mul Rat.inv Rat.ofScientific in
set_option maxRecDepth 40000 in
theorem wGrid_vx : wGrid.vx = List.replicate 12 (0 : ℝ) := rfl

attribute [local semireducible] Rat.add Rat.sub Rat.mul Rat.inv Rat.ofScientific in
set_option maxRecDepth 40000 in
theorem wGrid_vy : wGrid.vy = List.replicate 12 (0 : ℝ) := rfl

attribute [local semireducible] Rat.add Rat.sub Rat.mul Rat.inv Rat.ofScientific in
set_option maxRecDepth 40000 in
theorem wGrid_speed : wGrid.speed = List.replicate 12 (0 : ℝ) := rfl

attribute [local semireducible] Rat.add Rat.sub Rat.mul Rat.inv Rat.ofScientific in
/-- Both interior cells of the window grid carry a nonzero source, so every
SOR sweep skips them: the sweep is the identity. -/
theorem wSweep_id (mods : List ℝ) (ph : List ℝ) :
    sorSweep wCells wSrc mods 4 3 ph = ph := by
  have h1 : sorStep wCells wSrc mods 4 ph (1, 1) = ph := by
    unfold sorStep
    dsimp only
    rw [show wCells.getD (1 * 4 + 1) 0 = 0 from rfl,
      show wSrc.getD (1 * 4 + 1) 0 = 2/5 from rfl,
      if_neg (show ¬ (1 : ℚ) ≤ 0 from by decide),
      if_pos (show (2/5 : ℚ) ≠ 0 from by decide)]
  have h2 : sorStep wCells wSrc mods 4 ph (2, 1) = ph := by
    unfold sorStep
    dsimp only
    rw [show wCells.getD (1 * 4 + 2) 0 = 0 from rfl,
      show wSrc.getD (1 * 4 + 2) 0 = 1/5 from rfl,
      if_neg (show ¬ (1 : ℚ) ≤ 0 from by decide),
      if_pos (show (1/5 : ℚ) ≠ 0 from by decide)]
  unfold sorSweep
  rw [show interiorCells 4 3 = [(1, 1), (2, 1)] from by decide,
    List.foldl_cons, List.foldl_cons, List.foldl_nil, h1, h2]

theorem wIterate_id (mods : List ℝ) : ∀ (n : ℕ) (ph : List ℝ),
    sorIterate wCells wSrc mods 4 3 n ph = ph
  | 0, _ => rfl
  | n + 1, ph => by
      show sorIterate wCells wSrc mods 4 3 n (sorSweep wCells wSrc mods 4 3 ph) = ph
      rw [wSweep_id, wIterate_id mods n ph]

attribute [local semireducible] Rat.add Rat.sub Rat.mul Rat.inv Rat.ofScientific in
set_option maxRecDepth 40000 in
/-- The solved window grid has a strictly positive maximum speed. -/
theorem wGrid_maxSpeed_pos : 0 < (solve wGrid).getMaxSpeed := by
  have hdc : doorCells wGrid.sources wGrid.width wGrid.height = [] := by
    rw [wGrid_sources, wGrid_width, wGrid_height]
    decide
  have hsp : (solve wGrid).speed =
      (velocityPass wGrid.cells wGrid.width wGrid.height
        (sorIterate wGrid.cells wGrid.sources wGrid.flowModifier
          wGrid.width wGrid.height 600
          (initPotential wGrid.sources (wGrid.width * wGrid.height)))
        wGrid.vx wGrid.vy wGrid.speed).2.2 := by
    unfold solve
    dsimp only
    rw [hdc, if_neg (show ¬ 0 < List.length ([] : List (ℕ × ℕ)) from by simp)]
  rw [wGrid_cells, wGrid_sources, wGrid_mods, wGrid_width, wGrid_height] at hsp
  rw [wIterate_id] at hsp
  have hva := velocityPass_getD wCells 4 3 (initPotential wSrc (4 * 3))
    wGrid.vx wGrid.vy wGrid.speed
    ⟨by rw [wGrid_vx]; simp, by rw [wGrid_vy]; simp, by rw [wGrid_speed]; simp⟩
    (show ((2 : ℕ), (1 : ℕ)) ∈ interiorCells 4 3 from by decide)
    (show 1 * 4 + 2 < 4 * 3 from by norm_num)
  have hs6 : (solve wGrid).speed.getD (1 * 4 + 2) 0 =
      velS wCells (initPotential wSrc (4 * 3)) 4 (1 * 4 + 2) := by
    rw [hsp]
    exact hva.2.2
  have hp7 : (initPotential wSrc (4 * 3)).getD (1 * 4 + 2 + 1) 0 = 0 := by
    rw [initPotential_getD (show 1 * 4 + 2 + 1 < 4 * 3 from by norm_num),
      show wSrc.getD (1 * 4 + 2 + 1) 0 = 0 from rfl,
      if_neg (show ¬ (0 : ℚ) > 0 from by decide)]
  have hp5 : (initPotential wSrc (4 * 3)).getD (1 * 4 + 2 - 1) 0 =
      ((2/5 : ℚ) : ℝ) * 100 := by
    rw [initPotential_getD (show 1 * 4 + 2 - 1 < 4 * 3 from by norm_num),
      show wSrc.getD (1 * 4 + 2 - 1) 0 = 2/5 from rfl,
      if_pos (show (2/5 : ℚ) > 0 from by decide)]
  have hxpos : 0 < velX wCells (initPotential wSrc (4 * 3)) (1 * 4 + 2) := by
    rw [velX, show wCells.getD (1 * 4 + 2) 0 = 0 from rfl,
      if_neg (show ¬ (1 : ℚ) ≤ 0 from by decide), hp7, hp5,
      obstacleFactor, if_neg (show ¬ ((0 : ℚ) < 0 ∧ (0 : ℚ) < 1) from by decide)]
    push_cast
    norm_num
  have hspos : 0 < velS wCells (initPotential wSrc (4 * 3)) 4 (1 * 4 + 2) := by
    rw [velS, show wCells.getD (1 * 4 + 2) 0 = 0 from rfl,
      if_neg (show ¬ (1 : ℚ) ≤ 0 from by decide)]
    apply Real.sqrt_pos.mpr
    nlinarith [hxpos, sq_nonneg (velY wCells (initPotential wSrc (4 * 3)) 4 (1 * 4 + 2))]
  have h6 : 0 < (solve wGrid).speed.getD (1 * 4 + 2) 0 := by
    rw [hs6]
    exact hspos
  have hlen : 1 * 4 + 2 < (solve wGrid).speed.length := by
    by_contra hc
    rw [List.getD_eq_default _ _ (le_of_not_lt hc)] at h6
    exact lt_irrefl 0 h6
  have hmem : (solve wGrid).speed.getD (1 * 4 + 2) 0 ∈ (solve wGrid).speed := by
    rw [List.getD_eq_getElem _ _ hlen]
    exact List.getElem_mem _
  have hge := foldl_max_ge_mem (solve wGrid).speed 0 _ hmem
  unfold Grid.getMaxSpeed
  exact lt_of_lt_of_le h6 hge

attribute [local semireducible] Rat.add Rat.sub Rat.mul Rat.inv Rat.ofScientific in
set_option maxRecDepth 40000 in
/-- The solved window grid still has every source at most 0.5 (solve leaves
the sources untouched here), so its spawn scan is empty. -/
theorem wGrid_scan_nil : sourceScan (solve wGrid) = [] := by
  decide

/-- A particle system running on the solved windows-only grid. -/
noncomputable def psW10 : ParticleSystem := ⟨solve wGrid, 50, [], 5, []⟩

/-- C10: (i) the spawn scan collects exactly the in-bounds cells with
`source > 0.5` and records their strengths; (ii) a door-free rasterization
leaves every source entry at most 0.5 (windows write 0.4/0.2, mirrors 0.3);
(iii) a system whose grid scans empty holds zero live particles after
`reset(); findSources(); update(dt)`; (iv) concretely, the solved
windows-only grid scans empty and yields zero particles even though its
maximum speed is strictly positive. -/
theorem window_source_threshold :
    (∀ (g : Grid) (p : SrcPos), p ∈ sourceScan g ↔
      (p.x < g.width ∧ p.y < g.height ∧
        g.sources.getD (p.y * g.width + p.x) 0 > 1/2 ∧
        p.strength = g.sources.getD (p.y * g.width + p.x) 0)) ∧
      (∀ (st : EditorState) (w h : ℕ), st.doors = [] →
        ∀ q ∈ (rasterizeSized st w h).sources, q ≤ 1/2) ∧
      (∀ (ps : ParticleSystem) (dt : ℝ) (r : Rng), sourceScan ps.grid = [] →
        ((ps.reset.findSources).update dt r).1.particles = []) ∧
      (0 < (solve wGrid).getMaxSpeed ∧
        ∀ (dt : ℝ) (r : Rng),
          ((psW10.reset.findSources).update dt r).1.particles = []) :=
  ⟨mem_sourceScan,
    fun st w h hd => srcLe_rasterizeSized st w h hd,
    fun ps dt r hscan => reset_update_empty ps dt r hscan,
    wGrid_maxSpeed_pos,
    fun dt r => reset_update_empty psW10 dt r wGrid_scan_nil⟩

attribute [local semireducible] Rat.add Rat.sub Rat.mul Rat.inv Rat.ofScientific in
set_option maxRecDepth 40000 in
/-- Witness for C10: the door-free bound applied on a concrete rasterization
and the empty-scan emptiness applied on a concrete system. -/
theorem window_source_threshold_witness :
    (emptyState3.doors = [] ∧ (0 : ℚ) ∈ (rasterizeSized emptyState3 3 3).sources ∧
      (0 : ℚ) ≤ 1/2) ∧
      (sourceScan (Grid.make 3 3) = [] ∧
        ((psW9b.reset.findSources).update 1 rngW).1.particles = []) :=
  ⟨⟨rfl, by decide, window_source_threshold.2.1 emptyState3 3 3 rfl 0 (by decide)⟩,
    ⟨by decide, window_source_threshold.2.2.1 psW9b 1 rngW (by decide)⟩⟩

end FengShui
